import Mathlib

/-!
Shallow embedding of the dominant-color extraction core of the repository
(`src/utils/imageExtraction.ts` section of the concatenated sources):
the pixel sampler (`extractFromImageElement`), the k-means clustering engine
(`kMeansClustering`) and the distance helper (`colorDistance`).

Modelling conventions:
* RGB triples are rational triples (`ℚ × ℚ × ℚ`).  The JavaScript code works
  with IEEE doubles; all the arithmetic appearing in the claims (sums, means,
  comparisons of distances) is embedded as exact rational arithmetic.
* `colorDistance` in the source is `Math.sqrt` of the sum of squared channel
  differences, and every use of it in the program is a comparison
  (`dist < minDist`, `< 1`, test tolerance `< 5`).  Since `Real.sqrt` is
  strictly monotone on nonnegatives, `sqrt x < sqrt y ↔ x < y` for
  nonnegative `x y`, and `sqrt x < c ↔ x < c^2` for `c ≥ 0`.  We therefore
  embed the *squared* distance (`colorDistanceSq`) and phrase every
  comparison on squares, with thresholds squared (`1` stays `1`, `5`
  becomes `25`).  The initial `minDist = Infinity` is embedded as
  `⊤ : WithTop ℚ`.
* `Math.random()` is an external oracle.  Its uses are embedded as explicit
  oracle parameters: `picks : List ℕ` lists the successive values of
  `Math.floor(Math.random() * pixels.length)` consumed by the seeding loop
  (a real run corresponds to a prefix long enough for the loop condition to
  fail), and `rand : ℕ → ℚ × ℚ × ℚ` lists the successive random fill colors
  `[Math.random()*255, Math.random()*255, Math.random()*255]` (each channel
  of a real run lies in `[0, 255)`).  Distributional facts (uniformity) are
  properties of the oracle, not of this code.
-/

namespace Colors

/-- An RGB color triple, `[number, number, number]` in the source. -/
abbrev RGB : Type := ℚ × ℚ × ℚ

/-- Squared Euclidean distance between two colors in raw RGB space.
The source's `colorDistance` is `Math.sqrt` of this quantity; see the header
comment for why comparisons are embedded on squares. -/
def colorDistanceSq (c1 c2 : RGB) : ℚ :=
  (c1.1 - c2.1) ^ 2 + (c1.2.1 - c2.2.1) ^ 2 + (c1.2.2 - c2.2.2) ^ 2

/-- `dist < minDist` where `minDist` is `Infinity` (`none`) or a previously
seen squared distance. -/
def distLtB (d : ℚ) : Option ℚ → Bool
  | none => true
  | some m => decide (d < m)

/-- The inner scan of the assignment step:
`let minDist = Infinity; let closestCluster = 0;
 for (let i = 0; i < k; i++) { const dist = colorDistance(pixel, centroids[i]);
   if (dist < minDist) { minDist = dist; closestCluster = i; } }`.
Arguments: remaining centroids, index of the first of them, current
`minDist` (squared, `none` = `Infinity`), current `closestCluster`. -/
def assignGo (p : RGB) : List RGB → ℕ → Option ℚ → ℕ → ℕ
  | [], _, _, best => best
  | c :: cs, i, minDist, best =>
    if distLtB (colorDistanceSq p c) minDist then
      assignGo p cs (i + 1) (some (colorDistanceSq p c)) i
    else
      assignGo p cs (i + 1) minDist best

/-- Index of the centroid a pixel is assigned to (`closestCluster` after the
scan over all `k` centroids). -/
def closestCluster (centroids : List RGB) (p : RGB) : ℕ :=
  assignGo p centroids 0 none 0

/-- `clusters[idx].push(p)` on a list of cluster buckets
(out-of-range `idx` leaves the buckets unchanged; the source never produces
one since `closestCluster < k`). -/
def pushAt (p : RGB) : List (List RGB) → ℕ → List (List RGB)
  | [], _ => []
  | l :: ls, 0 => (l ++ [p]) :: ls
  | l :: ls, n + 1 => l :: pushAt p ls n

/-- The assignment loop `for (const pixel of pixels) clusters[closestCluster].push(pixel)`,
threading the bucket array `acc` (initially `k` empty buckets). -/
def buildClusters (centroids : List RGB) : List RGB → List (List RGB) → List (List RGB)
  | [], acc => acc
  | p :: ps, acc => buildClusters centroids ps (pushAt p acc (closestCluster centroids p))

/-- `clusters[i].reduce((acc, pixel) => [acc[0]+pixel[0], ...], [0,0,0])`. -/
def sumRGB (l : List RGB) : RGB :=
  l.foldl (fun acc p => (acc.1 + p.1, acc.2.1 + p.2.1, acc.2.2 + p.2.2)) (0, 0, 0)

/-- `[sum[0] / clusters[i].length, sum[1] / clusters[i].length, sum[2] / clusters[i].length]`. -/
def meanRGB (l : List RGB) : RGB :=
  ((sumRGB l).1 / l.length, (sumRGB l).2.1 / l.length, (sumRGB l).2.2 / l.length)

/-- The update step: for each cluster index, keep the old centroid if the
cluster is empty (`clusters[i].length === 0`), otherwise take the
component-wise mean of the cluster. -/
def updateCentroids (centroids : List RGB) (clusters : List (List RGB)) : List RGB :=
  List.zipWith (fun c cl => if cl.length = 0 then c else meanRGB cl) centroids clusters

/-- One full iteration body: assignment over all pixels followed by the
centroid update. -/
def kmeansStep (pixels : List RGB) (k : ℕ) (centroids : List RGB) : List RGB :=
  updateCentroids centroids (buildClusters centroids pixels (List.replicate k []))

/-- `centroids.every((centroid, i) => colorDistance(centroid, newCentroids[i]) < 1)`,
with the distance comparison taken on squares. -/
def convergedB (cs ns : List RGB) : Bool :=
  (List.zipWith (fun c n => decide (colorDistanceSq c n < 1)) cs ns).all id

/-- The main loop `for (let iteration = 0; iteration < maxIterations; iteration++)`;
`fuel` is the number of remaining iterations.  Each iteration computes
`newCentroids`, sets `centroids = newCentroids`, and breaks if converged. -/
def kmeansLoop (pixels : List RGB) (k : ℕ) : ℕ → List RGB → List RGB
  | 0, centroids => centroids
  | fuel + 1, centroids =>
    let newCentroids := kmeansStep pixels k centroids
    if convergedB centroids newCentroids then newCentroids
    else kmeansLoop pixels k fuel newCentroids

/-- The seeding loop
`while (centroids.length < k && usedIndices.size < pixels.length) { const idx = ...;
 if (!usedIndices.has(idx)) { centroids.push([...pixels[idx]]); usedIndices.add(idx); } }`.
`picks` is the finite prefix of index draws the loop consumed (see header);
the loop condition is re-checked before each draw. -/
def initLoop (pixels : List RGB) (k : ℕ) : List ℕ → List RGB → Finset ℕ → List RGB × Finset ℕ
  | [], cs, used => (cs, used)
  | idx :: rest, cs, used =>
    if cs.length < k ∧ used.card < pixels.length then
      if idx ∈ used then initLoop pixels k rest cs used
      else initLoop pixels k rest (cs ++ [pixels.getD idx (0, 0, 0)]) (insert idx used)
    else (cs, used)

/-- The fill loop `while (centroids.length < k) centroids.push([Math.random()*255, ...])`;
`rand i` is the `i`-th random color the oracle produces. -/
def fillLoop (k : ℕ) (rand : ℕ → RGB) (i : ℕ) (cs : List RGB) : List RGB :=
  if cs.length < k then fillLoop k rand (i + 1) (cs ++ [rand i]) else cs
termination_by k - cs.length
decreasing_by
  simp only [List.length_append, List.length_cons, List.length_nil]
  omega

/-- Full centroid initialization: random distinct draws, then random fills. -/
def initCentroids (pixels : List RGB) (k : ℕ) (picks : List ℕ) (rand : ℕ → RGB) : List RGB :=
  fillLoop k rand 0 (initLoop pixels k picks [] ∅).1

/-- `kMeansClustering(pixels, k, maxIterations)` from the source, with the
two random oracles made explicit. -/
def kMeansClustering (pixels : List RGB) (k : ℕ) (picks : List ℕ) (rand : ℕ → RGB)
    (maxIterations : ℕ) : List RGB :=
  kmeansLoop pixels k maxIterations (initCentroids pixels k picks rand)

/-- The source's default `maxIterations = 20`. -/
def maxIterationsDefault : ℕ := 20

/-- The sampling loop of `extractFromImageElement` over the flat RGBA byte
array of the scaled buffer:
`for (let i = 0; i < pixels.length; i += 16) { ... if (a > 128 && r+g+b > 30 && r+g+b < 735) sampledPixels.push([r,g,b]); }`.
Reading 4 bytes at `i` and stepping `i += 16` is: consume one RGBA quad,
then skip the next 12 bytes (3 pixels). -/
def samplePixels : List ℕ → List (ℕ × ℕ × ℕ)
  | r :: g :: b :: a :: rest =>
    (if 128 < a ∧ 30 < r + g + b ∧ r + g + b < 735 then [(r, g, b)] else [])
      ++ samplePixels (List.drop 12 rest)
  | _ => []
termination_by l => l.length
decreasing_by
  simp only [List.length_cons, List.length_drop]
  omega

/-- `Math.round` for the nonnegative values arising here: round-half-up. -/
def jsRound (q : ℚ) : ℤ := ⌊q + 1 / 2⌋

/-- `(n) => Math.round(n).toString(16).padStart(2, '0')` (the source only
applies it to channels in `[0, 255]`, so the rounded value is a nonnegative
integer and `toString(16)` is plain base-16 lowercase). -/
def toHexChannel (q : ℚ) : String :=
  let ds := Nat.toDigits 16 (jsRound q).toNat
  String.mk (List.replicate (2 - ds.length) '0' ++ ds)

/-- `` `#${toHex(r)}${toHex(g)}${toHex(b)}` ``. -/
def rgbToHexString (c : RGB) : String :=
  "#" ++ toHexChannel c.1 ++ toHexChannel c.2.1 ++ toHexChannel c.2.2

/-- `extractFromImageElement` from the point where the scaled buffer's byte
array is in hand: sample and filter, fall back to `['#000000']` when no
pixel survives, otherwise cluster and hex-format.  Canvas creation, image
decoding and downscaling happen before this point and are platform I/O. -/
def extractFromImageElement (data : List ℕ) (colorCount : ℕ) (picks : List ℕ)
    (rand : ℕ → RGB) : List String :=
  let sampledPixels := samplePixels data
  if sampledPixels.length = 0 then ["#000000"]
  else
    (kMeansClustering
        (sampledPixels.map (fun t => ((t.1 : ℚ), (t.2.1 : ℚ), (t.2.2 : ℚ))))
        colorCount picks rand maxIterationsDefault).map rgbToHexString

/-! ### Statement apparatus

Derived notions used to *state* the claims: the multiset of points assigned
to a cluster, pixel-quad views of the flat byte array, boundedness of a
color, and the predicate recording that the seeding loop's exit condition
was reached by the end of the recorded draws. -/

/-- The points of `pixels` that the assignment step sends to cluster `i`
(in scan order): the contents of `clusters[i]` after the assignment loop. -/
def assignedTo (centroids : List RGB) (pixels : List RGB) (i : ℕ) : List RGB :=
  pixels.filter (fun p => closestCluster centroids p == i)

/-- Group a flat byte array into RGBA quads. -/
def toQuads : List ℕ → List (ℕ × ℕ × ℕ × ℕ)
  | r :: g :: b :: a :: rest => (r, g, b, a) :: toQuads rest
  | _ => []

/-- Every 4th element of a list (indices `0, 4, 8, …`). -/
def every4 {α : Type} : List α → List α
  | [] => []
  | x :: rest => x :: every4 (List.drop 3 rest)
termination_by l => l.length
decreasing_by
  simp only [List.length_cons, List.length_drop]
  omega

/-- The spec's filtering rule, stated negatively: a pixel is kept iff none
of (alpha ≤ 128), (R+G+B ≤ 30), (R+G+B ≥ 735) holds. -/
def keepPixel (q : ℕ × ℕ × ℕ × ℕ) : Bool :=
  !(decide (q.2.2.2 ≤ 128) || decide (q.1 + q.2.1 + q.2.2.1 ≤ 30)
    || decide (735 ≤ q.1 + q.2.1 + q.2.2.1))

/-- Flatten RGBA quads back into the byte array. -/
def flattenRGBA : List (ℕ × ℕ × ℕ × ℕ) → List ℕ
  | [] => []
  | (r, g, b, a) :: rest => r :: g :: b :: a :: flattenRGBA rest

/-- All three channels lie in `[0, 255]`. -/
def boundedRGB (c : RGB) : Prop :=
  (0 ≤ c.1 ∧ c.1 ≤ 255) ∧ (0 ≤ c.2.1 ∧ c.2.1 ≤ 255) ∧ (0 ≤ c.2.2 ∧ c.2.2 ≤ 255)

/-- The seeding loop's exit condition was reached by the end of the recorded
draws `picks` (every real run provides such a prefix: the loop only
terminates by falsifying its condition). -/
def initLoopDone (pixels : List RGB) (k : ℕ) (picks : List ℕ) : Prop :=
  ¬((initLoop pixels k picks [] ∅).1.length < k ∧
    (initLoop pixels k picks [] ∅).2.card < pixels.length)

/-- The lowercase hex digits. -/
def hexDigits : List Char := "0123456789abcdef".data

/-- The spec's synthetic two-cluster sample set: 50 points at `(0,0,0)` and
50 points at `(255,255,255)`. -/
def twoClusterSample : List RGB :=
  List.replicate 50 ((0 : ℚ), (0 : ℚ), (0 : ℚ))
    ++ List.replicate 50 ((255 : ℚ), (255 : ℚ), (255 : ℚ))

/-- Cluster `i` receives no point in any executed iteration of the run that
starts from `cs` with `fuel` iterations left: no pixel is assigned to `i`
now, and, if the loop continues (no convergence), the same holds along the
rest of the run. -/
def untouchedRun (pixels : List RGB) (k : ℕ) (i : ℕ) : ℕ → List RGB → Prop
  | 0, _ => True
  | fuel + 1, cs =>
    (∀ p ∈ pixels, closestCluster cs p ≠ i) ∧
    (convergedB cs (kmeansStep pixels k cs) = false →
      untouchedRun pixels k i fuel (kmeansStep pixels k cs))

/-! ### Equation lemmas for the well-founded recursions -/

lemma samplePixels_cons (r g b a : ℕ) (rest : List ℕ) :
    samplePixels (r :: g :: b :: a :: rest)
      = (if 128 < a ∧ 30 < r + g + b ∧ r + g + b < 735 then [(r, g, b)] else [])
        ++ samplePixels (List.drop 12 rest) := by
  rw [samplePixels]

lemma samplePixels_short (l : List ℕ) (h : l.length < 4) : samplePixels l = [] := by
  match l, h with
  | [], _ => rw [samplePixels]; exact fun r g b a rest h2 => nomatch h2
  | [x], _ => rw [samplePixels]; exact fun r g b a rest h2 => nomatch h2
  | [x, y], _ => rw [samplePixels]; exact fun r g b a rest h2 => nomatch h2
  | [x, y, z], _ => rw [samplePixels]; exact fun r g b a rest h2 => nomatch h2

lemma samplePixels_nil : samplePixels [] = [] :=
  samplePixels_short [] (by norm_num)

lemma every4_nil {α : Type} : every4 (α := α) [] = [] := by
  rw [every4]

lemma every4_cons {α : Type} (x : α) (rest : List α) :
    every4 (x :: rest) = x :: every4 (List.drop 3 rest) := by
  rw [every4]

lemma fillLoop_stop (k : ℕ) (rand : ℕ → RGB) (i : ℕ) (cs : List RGB)
    (h : ¬cs.length < k) : fillLoop k rand i cs = cs := by
  rw [fillLoop]
  simp [h]

lemma fillLoop_go (k : ℕ) (rand : ℕ → RGB) (i : ℕ) (cs : List RGB)
    (h : cs.length < k) : fillLoop k rand i cs = fillLoop k rand (i + 1) (cs ++ [rand i]) := by
  rw [fillLoop]
  simp [h]

/-- Closed form of the fill loop: it appends exactly `k - cs.length` oracle
colors. -/
lemma fillLoop_eq (k : ℕ) (rand : ℕ → RGB) :
    ∀ (n : ℕ) (cs : List RGB) (i : ℕ), k - cs.length = n →
      fillLoop k rand i cs = cs ++ (List.range n).map (fun t => rand (i + t)) := by
  intro n
  induction n with
  | zero =>
    intro cs i h
    rw [fillLoop_stop k rand i cs (by omega)]
    simp
  | succ n ih =>
    intro cs i h
    have hlt : cs.length < k := by omega
    rw [fillLoop_go k rand i cs hlt]
    rw [ih (cs ++ [rand i]) (i + 1) (by simp; omega)]
    simp only [List.range_succ_eq_map, List.map_cons, List.map_map, List.append_assoc,
      List.cons_append, List.nil_append]
    refine congrArg _ (congrArg _ ?_)
    refine congrArg (List.map · (List.range n)) ?_
    funext t
    simp [Function.comp]
    ring_nf

/-! ### The assignment loop builds exactly the fibers of `closestCluster` -/

lemma pushAt_length (p : RGB) : ∀ (ls : List (List RGB)) (n : ℕ),
    (pushAt p ls n).length = ls.length := by
  intro ls
  induction ls with
  | nil => intro n; rfl
  | cons l ls ih =>
    intro n
    cases n with
    | zero => rfl
    | succ n => simpa [pushAt] using ih n

lemma buildClusters_length (centroids : List RGB) : ∀ (ps : List RGB) (acc : List (List RGB)),
    (buildClusters centroids ps acc).length = acc.length := by
  intro ps
  induction ps with
  | nil => intro acc; rfl
  | cons p ps ih =>
    intro acc
    rw [buildClusters, ih, pushAt_length]

lemma pushAt_getD (p : RGB) : ∀ (ls : List (List RGB)) (n j : ℕ), j < ls.length →
    (pushAt p ls n).getD j [] = if n = j then ls.getD j [] ++ [p] else ls.getD j [] := by
  intro ls
  induction ls with
  | nil => intro n j hj; simp at hj
  | cons l ls ih =>
    intro n j hj
    cases n with
    | zero =>
      cases j with
      | zero => simp [pushAt]
      | succ j => simp [pushAt]
    | succ n =>
      cases j with
      | zero => simp [pushAt, Nat.succ_ne_zero]
      | succ j =>
        have hj2 : j < ls.length := by simpa using hj
        simpa [pushAt, Nat.succ_eq_add_one] using ih n j hj2

lemma buildClusters_getD (centroids : List RGB) :
    ∀ (ps : List RGB) (acc : List (List RGB)) (j : ℕ), j < acc.length →
      (buildClusters centroids ps acc).getD j []
        = acc.getD j [] ++ ps.filter (fun p => closestCluster centroids p == j) := by
  intro ps
  induction ps with
  | nil => intro acc j hj; simp [buildClusters]
  | cons p ps ih =>
    intro acc j hj
    rw [buildClusters]
    rw [ih _ j (by rw [pushAt_length]; exact hj)]
    rw [pushAt_getD p acc _ j hj]
    by_cases hc : closestCluster centroids p = j
    · simp [hc, List.filter_cons]
    · simp [hc, List.filter_cons, Ne.symm hc]

/-- `clusters[i]` after the assignment loop is exactly the list of pixels
whose nearest centroid index is `i`, in scan order. -/
lemma clusters_eq_assignedTo (centroids : List RGB) (pixels : List RGB) (k : ℕ) (j : ℕ)
    (hj : j < k) :
    (buildClusters centroids pixels (List.replicate k [])).getD j [] =
      assignedTo centroids pixels j := by
  rw [buildClusters_getD centroids pixels _ j (by simpa using hj)]
  rw [List.getD_eq_getElem _ _ (by simpa using hj)]
  simp [assignedTo, hj]

/-! ### The update step -/

lemma updateCentroids_length (cs : List RGB) (cls : List (List RGB)) :
    (updateCentroids cs cls).length = min cs.length cls.length := by
  simp [updateCentroids]

lemma updateCentroids_getD (cs : List RGB) (cls : List (List RGB)) (j : ℕ)
    (hj : j < cs.length) (hj2 : j < cls.length) :
    (updateCentroids cs cls).getD j (0, 0, 0)
      = if (cls.getD j []).length = 0 then cs.getD j (0, 0, 0)
        else meanRGB (cls.getD j []) := by
  have hlen : j < (updateCentroids cs cls).length := by
    rw [updateCentroids_length]; omega
  rw [List.getD_eq_getElem _ _ hlen, List.getD_eq_getElem _ _ hj, List.getD_eq_getElem _ _ hj2]
  simp [updateCentroids]

lemma kmeansStep_length (pixels : List RGB) (k : ℕ) (cs : List RGB) (h : cs.length = k) :
    (kmeansStep pixels k cs).length = k := by
  rw [kmeansStep, updateCentroids_length, buildClusters_length]
  simp [h]

/-- One iteration, per index: the new centroid `i` is the old one if no
pixel is assigned to `i`, and the mean of the assigned pixels otherwise. -/
lemma kmeansStep_getD (pixels : List RGB) (k : ℕ) (cs : List RGB) (h : cs.length = k)
    (j : ℕ) (hj : j < k) :
    (kmeansStep pixels k cs).getD j (0, 0, 0)
      = if (assignedTo cs pixels j).length = 0 then cs.getD j (0, 0, 0)
        else meanRGB (assignedTo cs pixels j) := by
  rw [kmeansStep, updateCentroids_getD cs _ j (by omega)
    (by rw [buildClusters_length]; simpa using hj)]
  rw [clusters_eq_assignedTo cs pixels k j hj]

/-! ### The main loop as iterated steps with an early exit -/

lemma kmeansLoop_zero (pixels : List RGB) (k : ℕ) (cs : List RGB) :
    kmeansLoop pixels k 0 cs = cs := rfl

lemma kmeansLoop_succ (pixels : List RGB) (k : ℕ) (fuel : ℕ) (cs : List RGB) :
    kmeansLoop pixels k (fuel + 1) cs
      = if convergedB cs (kmeansStep pixels k cs) then kmeansStep pixels k cs
        else kmeansLoop pixels k fuel (kmeansStep pixels k cs) := rfl

/-- If no convergence happens during the first `fuel` steps, the loop runs
to the iteration cap and returns the `fuel`-fold step. -/
lemma kmeansLoop_cap (pixels : List RGB) (k : ℕ) :
    ∀ (fuel : ℕ) (cs : List RGB),
      (∀ m < fuel, convergedB ((kmeansStep pixels k)^[m] cs)
          ((kmeansStep pixels k)^[m + 1] cs) = false) →
      kmeansLoop pixels k fuel cs = (kmeansStep pixels k)^[fuel] cs := by
  intro fuel
  induction fuel with
  | zero => intro cs _; rfl
  | succ fuel ih =>
    intro cs h
    rw [kmeansLoop_succ]
    have h0 : convergedB cs (kmeansStep pixels k cs) = false := by
      simpa using h 0 (Nat.succ_pos fuel)
    rw [if_neg (by simp [h0])]
    rw [ih (kmeansStep pixels k cs) (fun m hm => by
      simpa [Function.iterate_succ_apply] using h (m + 1) (by omega))]
    rw [← Function.iterate_succ_apply]

/-- If the first convergence happens after the `m`-th update (`m < fuel`),
the loop stops there and returns the `(m+1)`-fold step. -/
lemma kmeansLoop_early (pixels : List RGB) (k : ℕ) :
    ∀ (m fuel : ℕ) (cs : List RGB), m < fuel →
      convergedB ((kmeansStep pixels k)^[m] cs) ((kmeansStep pixels k)^[m + 1] cs) = true →
      (∀ j < m, convergedB ((kmeansStep pixels k)^[j] cs)
          ((kmeansStep pixels k)^[j + 1] cs) = false) →
      kmeansLoop pixels k fuel cs = (kmeansStep pixels k)^[m + 1] cs := by
  intro m
  induction m with
  | zero =>
    intro fuel cs hm hconv _
    obtain ⟨fuel, rfl⟩ := Nat.exists_eq_add_of_lt hm
    rw [kmeansLoop_succ]
    have hconv2 : convergedB cs (kmeansStep pixels k cs) = true := by simpa using hconv
    rw [if_pos (by simp [hconv2])]
    simp
  | succ m ih =>
    intro fuel cs hm hconv hnot
    obtain ⟨fuel, rfl⟩ := Nat.exists_eq_add_of_lt hm
    rw [kmeansLoop_succ]
    have h0 : convergedB cs (kmeansStep pixels k cs) = false := by
      simpa using hnot 0 (Nat.succ_pos m)
    rw [if_neg (by simp [h0])]
    have step1 : kmeansLoop pixels k (m + 1 + fuel) (kmeansStep pixels k cs)
        = (kmeansStep pixels k)^[m + 1] (kmeansStep pixels k cs) := by
      refine ih (m + 1 + fuel) (kmeansStep pixels k cs) (by omega) ?_ ?_
      · simpa [Function.iterate_succ_apply] using hconv
      · intro j hj
        simpa [Function.iterate_succ_apply] using hnot (j + 1) (by omega)
    rw [step1, ← Function.iterate_succ_apply]

/-- The loop result is always some `n ≤ fuel`-fold application of the step
function (so the loop performs at most `fuel` update iterations and returns
a computed centroid set in every case). -/
lemma kmeansLoop_bounded (pixels : List RGB) (k : ℕ) :
    ∀ (fuel : ℕ) (cs : List RGB),
      ∃ n ≤ fuel, kmeansLoop pixels k fuel cs = (kmeansStep pixels k)^[n] cs := by
  intro fuel
  induction fuel with
  | zero => intro cs; exact ⟨0, le_refl 0, rfl⟩
  | succ fuel ih =>
    intro cs
    rw [kmeansLoop_succ]
    by_cases hc : convergedB cs (kmeansStep pixels k cs)
    · exact ⟨1, by omega, by simp [hc]⟩
    · obtain ⟨n, hn, heq⟩ := ih (kmeansStep pixels k cs)
      exact ⟨n + 1, by omega, by
        simp only [if_neg hc]
        rw [heq, ← Function.iterate_succ_apply]⟩

lemma kmeansLoop_length (pixels : List RGB) (k : ℕ) :
    ∀ (fuel : ℕ) (cs : List RGB), cs.length = k →
      (kmeansLoop pixels k fuel cs).length = k := by
  intro fuel
  induction fuel with
  | zero => intro cs h; exact h
  | succ fuel ih =>
    intro cs h
    rw [kmeansLoop_succ]
    by_cases hc : convergedB cs (kmeansStep pixels k cs)
    · simp [hc, kmeansStep_length pixels k cs h]
    · simp only [if_neg hc]
      exact ih _ (kmeansStep_length pixels k cs h)

/-! ### The assignment scan is argmin with first-seen tie-breaking -/

lemma getD_mem_of_lt {α : Type} (l : List α) (d : α) (i : ℕ) (h : i < l.length) :
    l.getD i d ∈ l := by
  rw [List.getD_eq_getElem _ _ h]
  exact List.getElem_mem h

lemma distLtB_none (d : ℚ) : distLtB d none = true := rfl

lemma distLtB_some (d m : ℚ) : distLtB d (some m) = decide (d < m) := rfl

/-- Invariant of the scan `assignGo`: either no remaining centroid beats the
incoming minimum (result is the incoming best index), or the result is the
position of the first remaining centroid realizing the strict minimum. -/
lemma assignGo_spec (p : RGB) :
    ∀ (cs : List RGB) (i : ℕ) (m : Option ℚ) (b : ℕ),
      (assignGo p cs i m b = b ∧
        ∀ q ∈ cs, distLtB (colorDistanceSq p q) m = false) ∨
      (∃ t < cs.length, assignGo p cs i m b = i + t ∧
        distLtB (colorDistanceSq p (cs.getD t (0, 0, 0))) m = true ∧
        (∀ s < cs.length, colorDistanceSq p (cs.getD t (0, 0, 0))
          ≤ colorDistanceSq p (cs.getD s (0, 0, 0))) ∧
        (∀ s < t, colorDistanceSq p (cs.getD t (0, 0, 0))
          < colorDistanceSq p (cs.getD s (0, 0, 0)))) := by
  intro cs
  induction cs with
  | nil =>
    intro i m b
    exact Or.inl ⟨rfl, by simp⟩
  | cons c cs ih =>
    intro i m b
    by_cases hc : distLtB (colorDistanceSq p c) m = true
    · right
      rw [assignGo, if_pos hc]
      rcases ih (i + 1) (some (colorDistanceSq p c)) i with ⟨heq, hall⟩ | ⟨t, ht, heq, hbeat, hmin, hstrict⟩
      · -- nothing in the tail beats `c`: the head is the strict minimum
        refine ⟨0, by simp, by simpa using heq, by simpa using hc, ?_, by omega⟩
        intro s hs
        cases s with
        | zero => simp
        | succ s =>
          have hmem : cs.getD s (0, 0, 0) ∈ cs :=
            getD_mem_of_lt cs (0, 0, 0) s (by simpa using hs)
          have := hall _ hmem
          rw [distLtB_some] at this
          simp only [decide_eq_false_iff_not, not_lt] at this
          simpa using this
      · -- position `t` of the tail is the strict minimum, beating `c` too
        have hlt : colorDistanceSq p (cs.getD t (0, 0, 0)) < colorDistanceSq p c := by
          rw [distLtB_some] at hbeat
          simpa using hbeat
        refine ⟨t + 1, by simpa using ht, by omega, ?_, ?_, ?_⟩
        · rcases m with _ | m0
          · exact distLtB_none _
          · rw [distLtB_some] at hc ⊢
            simp only [decide_eq_true_eq] at hc ⊢
            exact lt_trans hlt hc
        · intro s hs
          cases s with
          | zero => simpa using le_of_lt hlt
          | succ s => simpa using hmin s (by simpa using hs)
        · intro s hs
          cases s with
          | zero => simpa using hlt
          | succ s => simpa using hstrict s (by omega)
    · -- the head does not beat the incoming minimum
      have hcf : distLtB (colorDistanceSq p c) m = false := by
        simpa using hc
      rw [assignGo, if_neg (by simp [hcf])]
      rcases ih (i + 1) m b with ⟨heq, hall⟩ | ⟨t, ht, heq, hbeat, hmin, hstrict⟩
      · left
        refine ⟨heq, ?_⟩
        intro q hq
        rcases List.mem_cons.mp hq with rfl | hq2
        · exact hcf
        · exact hall q hq2
      · right
        have hm0 : ∃ m0, m = some m0 := by
          rcases m with _ | m0
          · rw [distLtB_none] at hcf; simp at hcf
          · exact ⟨m0, rfl⟩
        obtain ⟨m0, rfl⟩ := hm0
        have hcge : m0 ≤ colorDistanceSq p c := by
          rw [distLtB_some] at hcf
          simpa using hcf
        have htlt : colorDistanceSq p (cs.getD t (0, 0, 0)) < m0 := by
          rw [distLtB_some] at hbeat
          simpa using hbeat
        refine ⟨t + 1, by simpa using ht, by omega, by
            rw [distLtB_some]; simpa using htlt, ?_, ?_⟩
        · intro s hs
          cases s with
          | zero => simpa using le_of_lt (lt_of_lt_of_le htlt hcge)
          | succ s => simpa using hmin s (by simpa using hs)
        · intro s hs
          cases s with
          | zero => simpa using lt_of_lt_of_le htlt hcge
          | succ s => simpa using hstrict s (by omega)

/-- `closestCluster` returns the first index achieving the minimal distance:
in bounds, weakly minimal among all centroids, strictly below every earlier
centroid's distance. -/
lemma closestCluster_spec (centroids : List RGB) (p : RGB) (h : centroids ≠ []) :
    closestCluster centroids p < centroids.length ∧
    (∀ i < centroids.length,
      colorDistanceSq p (centroids.getD (closestCluster centroids p) (0, 0, 0))
        ≤ colorDistanceSq p (centroids.getD i (0, 0, 0))) ∧
    (∀ i < closestCluster centroids p,
      colorDistanceSq p (centroids.getD (closestCluster centroids p) (0, 0, 0))
        < colorDistanceSq p (centroids.getD i (0, 0, 0))) := by
  rcases assignGo_spec p centroids 0 none 0 with ⟨heq, hall⟩ | ⟨t, ht, heq, _, hmin, hstrict⟩
  · rcases centroids with _ | ⟨c, cs⟩
    · exact absurd rfl h
    · have := hall c (List.mem_cons_self c cs)
      rw [distLtB_none] at this
      simp at this
  · have hcc : closestCluster centroids p = t := by
      rw [closestCluster, heq]; omega
    rw [hcc]
    exact ⟨ht, hmin, hstrict⟩

/-! ### The seeding loop: distinct draws tracked by the visited-index set -/

/-- Full characterization of the seeding loop: it draws a duplicate-free
list of indices, none of them visited before, appends the corresponding
pixels (in draw order) to the centroid list, records them in the visited
set, and never grows the centroid list beyond `k`. -/
lemma initLoop_spec (pixels : List RGB) (k : ℕ) :
    ∀ (picks : List ℕ) (cs : List RGB) (used : Finset ℕ),
      (∀ j ∈ picks, j < pixels.length) →
      used.card = cs.length →
      cs.length ≤ k →
      ∃ idxs : List ℕ,
        idxs.Nodup ∧
        (∀ j ∈ idxs, j < pixels.length ∧ j ∉ used) ∧
        (initLoop pixels k picks cs used).1
          = cs ++ idxs.map (fun j => pixels.getD j (0, 0, 0)) ∧
        (initLoop pixels k picks cs used).2 = used ∪ idxs.toFinset ∧
        (initLoop pixels k picks cs used).1.length ≤ k := by
  intro picks
  induction picks with
  | nil =>
    intro cs used _ _ hle
    exact ⟨[], List.nodup_nil, by simp, by simp [initLoop], by simp [initLoop], by
      simpa [initLoop] using hle⟩
  | cons idx rest ih =>
    intro cs used hval hcard hle
    rw [initLoop]
    by_cases hcond : cs.length < k ∧ used.card < pixels.length
    · rw [if_pos hcond]
      by_cases hmem : idx ∈ used
      · rw [if_pos hmem]
        obtain ⟨idxs, hnd, hfresh, h1, h2, h3⟩ :=
          ih cs used (fun j hj => hval j (List.mem_cons_of_mem idx hj)) hcard hle
        exact ⟨idxs, hnd, hfresh, h1, h2, h3⟩
      · rw [if_neg hmem]
        obtain ⟨idxs, hnd, hfresh, h1, h2, h3⟩ :=
          ih (cs ++ [pixels.getD idx (0, 0, 0)]) (insert idx used)
            (fun j hj => hval j (List.mem_cons_of_mem idx hj))
            (by rw [Finset.card_insert_of_not_mem hmem, hcard]; simp)
            (by simp; omega)
        refine ⟨idx :: idxs, ?_, ?_, ?_, ?_, h3⟩
        · refine List.nodup_cons.mpr ⟨?_, hnd⟩
          intro hin
          exact (hfresh idx hin).2 (Finset.mem_insert_self idx used)
        · intro j hj
          rcases List.mem_cons.mp hj with heq | hj2
          · subst heq
            exact ⟨hval _ (List.mem_cons_self _ _), hmem⟩
          · exact ⟨(hfresh j hj2).1, fun hju =>
              (hfresh j hj2).2 (Finset.mem_insert_of_mem hju)⟩
        · rw [h1]
          simp
        · rw [h2]
          rw [List.toFinset_cons]
          rw [Finset.union_insert, Finset.insert_union]
    · rw [if_neg hcond]
      exact ⟨[], List.nodup_nil, by simp, by simp, by simp, by simpa using hle⟩

/-- The seeding loop starting from the empty state, assuming the recorded
draws are long enough for the loop to have exited (`initLoopDone`): the
drawn index list is duplicate-free, within range, of length `≤ k`, of
length exactly `k` unless every pixel index was drawn, and the visited set
is exactly the drawn set. -/
lemma initLoop_done_spec (pixels : List RGB) (k : ℕ) (picks : List ℕ)
    (hval : ∀ j ∈ picks, j < pixels.length)
    (hdone : initLoopDone pixels k picks) :
    ∃ idxs : List ℕ,
      idxs.Nodup ∧
      (∀ j ∈ idxs, j < pixels.length) ∧
      idxs.length ≤ k ∧
      (idxs.length < k → idxs.length = pixels.length) ∧
      (initLoop pixels k picks [] ∅).1 = idxs.map (fun j => pixels.getD j (0, 0, 0)) := by
  obtain ⟨idxs, hnd, hfresh, h1, h2, h3⟩ :=
    initLoop_spec pixels k picks [] ∅ hval (by simp) (by simp)
  have hlen1 : (initLoop pixels k picks [] ∅).1.length = idxs.length := by
    rw [h1]; simp
  have hcard : (initLoop pixels k picks [] ∅).2.card = idxs.length := by
    rw [h2]
    simp only [Finset.empty_union]
    exact List.toFinset_card_of_nodup hnd
  refine ⟨idxs, hnd, fun j hj => (hfresh j hj).1, by omega, ?_, by simpa using h1⟩
  intro hlt
  rw [initLoopDone] at hdone
  push_neg at hdone
  have hple : pixels.length ≤ idxs.length := by
    have := hdone (by omega)
    omega
  have hsub : idxs.toFinset ⊆ Finset.range pixels.length := by
    intro j hj
    rw [Finset.mem_range]
    exact (hfresh j (List.mem_toFinset.mp hj)).1
  have : idxs.toFinset.card ≤ pixels.length := by
    simpa using Finset.card_le_card hsub
  rw [List.toFinset_card_of_nodup hnd] at this
  omega

/-- `initCentroids` under `initLoopDone`: the drawn pixels followed by
exactly `k - (number of draws)` oracle fill colors; in particular exactly
`k` centroids. -/
lemma initCentroids_spec (pixels : List RGB) (k : ℕ) (picks : List ℕ) (rand : ℕ → RGB)
    (hval : ∀ j ∈ picks, j < pixels.length)
    (hdone : initLoopDone pixels k picks) :
    ∃ idxs : List ℕ,
      idxs.Nodup ∧
      (∀ j ∈ idxs, j < pixels.length) ∧
      idxs.length ≤ k ∧
      (idxs.length < k → idxs.length = pixels.length) ∧
      initCentroids pixels k picks rand
        = idxs.map (fun j => pixels.getD j (0, 0, 0))
          ++ (List.range (k - idxs.length)).map rand := by
  obtain ⟨idxs, hnd, hval2, hlen, hexh, heq⟩ :=
    initLoop_done_spec pixels k picks hval hdone
  refine ⟨idxs, hnd, hval2, hlen, hexh, ?_⟩
  rw [initCentroids, heq]
  rw [fillLoop_eq k rand (k - idxs.length) _ 0 (by simp)]
  simp

/-- The seeding loop never grows the centroid list beyond `k`, for any draw
sequence whatsoever (it only pushes while `centroids.length < k`). -/
lemma initLoop_length_le (pixels : List RGB) (k : ℕ) :
    ∀ (picks : List ℕ) (cs : List RGB) (used : Finset ℕ), cs.length ≤ k →
      (initLoop pixels k picks cs used).1.length ≤ k := by
  intro picks
  induction picks with
  | nil => intro cs used h; simpa [initLoop] using h
  | cons idx rest ih =>
    intro cs used h
    rw [initLoop]
    by_cases hcond : cs.length < k ∧ used.card < pixels.length
    · rw [if_pos hcond]
      by_cases hmem : idx ∈ used
      · rw [if_pos hmem]; exact ih cs used h
      · rw [if_neg hmem]
        exact ih _ _ (by simp; omega)
    · rw [if_neg hcond]
      simpa using h

/-- The centroid list has exactly `k` entries right after initialization,
whatever the oracles do (even a draw prefix that stops the loop early only
shortens the drawn part; the fill loop always tops the list up to `k`). -/
lemma initCentroids_length (pixels : List RGB) (k : ℕ) (picks : List ℕ) (rand : ℕ → RGB) :
    (initCentroids pixels k picks rand).length = k := by
  have hle : (initLoop pixels k picks [] ∅).1.length ≤ k :=
    initLoop_length_le pixels k picks [] ∅ (by simp)
  rw [initCentroids, fillLoop_eq k rand (k - (initLoop pixels k picks [] ∅).1.length) _ 0 rfl]
  simp
  omega

/-! ### Convergence-check helpers -/

lemma colorDistanceSq_self (c : RGB) : colorDistanceSq c c = 0 := by
  simp [colorDistanceSq]

/-- `convergedB` says exactly: every old/new centroid pair is at squared
distance `< 1`. -/
lemma convergedB_iff (cs ns : List RGB) (h : cs.length = ns.length) :
    convergedB cs ns = true
      ↔ ∀ j < cs.length,
          colorDistanceSq (cs.getD j (0, 0, 0)) (ns.getD j (0, 0, 0)) < 1 := by
  rw [convergedB, List.all_eq_true]
  constructor
  · intro hall j hj
    have hj2 : j < (List.zipWith (fun c n => decide (colorDistanceSq c n < 1)) cs ns).length := by
      simpa [h] using hj
    have := hall _ (List.getElem_mem hj2)
    rw [List.getElem_zipWith] at this
    simp only [id, decide_eq_true_eq] at this
    rw [List.getD_eq_getElem _ _ hj, List.getD_eq_getElem _ _ (by omega : j < ns.length)]
    exact this
  · intro hall b hb
    obtain ⟨j, hj, rfl⟩ := List.getElem_of_mem hb
    rw [List.getElem_zipWith]
    have hjlen : j < cs.length := by
      have := hj
      simp only [List.length_zipWith] at this
      omega
    have := hall j hjlen
    rw [List.getD_eq_getElem _ _ hjlen,
      List.getD_eq_getElem _ _ (by omega : j < ns.length)] at this
    simpa using this

lemma convergedB_self (cs : List RGB) : convergedB cs cs = true := by
  rw [convergedB_iff cs cs rfl]
  intro j hj
  rw [colorDistanceSq_self]
  norm_num

/-! ### Claim theorems -/

/-- C1: for every non-empty list of RGB points and every `k ≥ 1`, the
clustering function returns exactly `k` RGB triples, and the centroid array
has exactly `k` entries from initialization through every iteration of the
loop (empty clusters retain their centroid, so no entry is ever dropped or
reseeded away). -/
theorem C1_output_cardinality (pixels : List RGB) (k : ℕ) (picks : List ℕ) (rand : ℕ → RGB)
    (maxIter : ℕ) (hne : pixels ≠ []) (hk : 1 ≤ k) :
    (initCentroids pixels k picks rand).length = k ∧
    (∀ cs : List RGB, cs.length = k → (kmeansStep pixels k cs).length = k) ∧
    (∀ (fuel : ℕ) (cs : List RGB), cs.length = k →
      (kmeansLoop pixels k fuel cs).length = k) ∧
    (kMeansClustering pixels k picks rand maxIter).length = k := by
  refine ⟨initCentroids_length pixels k picks rand,
    fun cs h => kmeansStep_length pixels k cs h,
    fun fuel cs h => kmeansLoop_length pixels k fuel cs h, ?_⟩
  rw [kMeansClustering]
  exact kmeansLoop_length pixels k maxIter _ (initCentroids_length pixels k picks rand)

theorem C1_output_cardinality_witness :
    ([((1 : ℚ), (2 : ℚ), (3 : ℚ))] ≠ [] ∧ 1 ≤ 2) ∧
    (kMeansClustering [((1 : ℚ), (2 : ℚ), (3 : ℚ))] 2 [0]
      (fun _ => ((9 : ℚ), (9 : ℚ), (9 : ℚ))) 20).length = 2 :=
  ⟨⟨by simp, by norm_num⟩,
    (C1_output_cardinality [((1 : ℚ), (2 : ℚ), (3 : ℚ))] 2 [0]
      (fun _ => ((9 : ℚ), (9 : ℚ), (9 : ℚ))) 20 (by simp) (by norm_num)).2.2.2⟩

/-- C3: in every iteration's assignment step, each sampled point is assigned
to the centroid at minimal (squared, hence also plain) Euclidean distance in
raw RGB space among the `k` current centroids, ties broken in favor of the
lowest centroid index via the strict less-than scan; and the cluster buckets
built by the assignment loop are exactly the fibers of this assignment. -/
theorem C3_nearest_assignment (centroids : List RGB) (p : RGB) (h : centroids ≠ []) :
    (closestCluster centroids p < centroids.length ∧
      (∀ i < centroids.length,
        colorDistanceSq p (centroids.getD (closestCluster centroids p) (0, 0, 0))
          ≤ colorDistanceSq p (centroids.getD i (0, 0, 0))) ∧
      (∀ i < closestCluster centroids p,
        colorDistanceSq p (centroids.getD (closestCluster centroids p) (0, 0, 0))
          < colorDistanceSq p (centroids.getD i (0, 0, 0)))) ∧
    (∀ (pixels : List RGB) (j : ℕ), j < centroids.length →
      (buildClusters centroids pixels (List.replicate centroids.length [])).getD j []
        = pixels.filter (fun q => closestCluster centroids q == j)) :=
  ⟨closestCluster_spec centroids p h,
    fun pixels j hj => clusters_eq_assignedTo centroids pixels centroids.length j hj⟩

theorem C3_nearest_assignment_witness :
    ([((0 : ℚ), (0 : ℚ), (0 : ℚ)), ((1 : ℚ), (1 : ℚ), (1 : ℚ)), ((1 : ℚ), (1 : ℚ), (1 : ℚ))]
        ≠ ([] : List RGB)) ∧
    closestCluster
      [((0 : ℚ), (0 : ℚ), (0 : ℚ)), ((1 : ℚ), (1 : ℚ), (1 : ℚ)), ((1 : ℚ), (1 : ℚ), (1 : ℚ))]
      ((1 : ℚ), (1 : ℚ), (1 : ℚ)) <
      [((0 : ℚ), (0 : ℚ), (0 : ℚ)), ((1 : ℚ), (1 : ℚ), (1 : ℚ)),
        ((1 : ℚ), (1 : ℚ), (1 : ℚ))].length :=
  ⟨by simp,
    (C3_nearest_assignment
      [((0 : ℚ), (0 : ℚ), (0 : ℚ)), ((1 : ℚ), (1 : ℚ), (1 : ℚ)), ((1 : ℚ), (1 : ℚ), (1 : ℚ))]
      ((1 : ℚ), (1 : ℚ), (1 : ℚ)) (by simp)).1.1⟩

/-- C4: the clustering loop performs at most `maxIterations` update
iterations (its result is always an `n ≤ maxIterations`-fold application of
the per-iteration step); it terminates early exactly at the first iteration
whose update moves every centroid by squared distance `< 1` (equivalently
Euclidean distance `< 1`); if no such iteration occurs within the cap, the
loop runs all `maxIterations` iterations and returns the last computed
centroid set — an ordinary return, not an error.  The last conjunct renders
the convergence check itself: all old/new pairs at squared distance `< 1`. -/
theorem C4_iteration_cap_and_early_exit (pixels : List RGB) (k : ℕ) (maxIter : ℕ)
    (cs : List RGB) :
    (∃ n ≤ maxIter, kmeansLoop pixels k maxIter cs = (kmeansStep pixels k)^[n] cs) ∧
    ((∀ m < maxIter, convergedB ((kmeansStep pixels k)^[m] cs)
        ((kmeansStep pixels k)^[m + 1] cs) = false) →
      kmeansLoop pixels k maxIter cs = (kmeansStep pixels k)^[maxIter] cs) ∧
    (∀ m < maxIter, convergedB ((kmeansStep pixels k)^[m] cs)
        ((kmeansStep pixels k)^[m + 1] cs) = true →
      (∀ j < m, convergedB ((kmeansStep pixels k)^[j] cs)
        ((kmeansStep pixels k)^[j + 1] cs) = false) →
      kmeansLoop pixels k maxIter cs = (kmeansStep pixels k)^[m + 1] cs) ∧
    (∀ cs2 ns2 : List RGB, cs2.length = ns2.length →
      (convergedB cs2 ns2 = true ↔ ∀ j < cs2.length,
        colorDistanceSq (cs2.getD j (0, 0, 0)) (ns2.getD j (0, 0, 0)) < 1)) :=
  ⟨kmeansLoop_bounded pixels k maxIter cs,
    kmeansLoop_cap pixels k maxIter cs,
    fun m hm hconv hnot => kmeansLoop_early pixels k m maxIter cs hm hconv hnot,
    fun cs2 ns2 h => convergedB_iff cs2 ns2 h⟩

theorem C4_iteration_cap_and_early_exit_witness :
    convergedB [((2 : ℚ), (2 : ℚ), (2 : ℚ))]
        ((kmeansStep [((2 : ℚ), (2 : ℚ), (2 : ℚ))] 1)^[0 + 1]
          [((2 : ℚ), (2 : ℚ), (2 : ℚ))]) = true ∧
    kmeansLoop [((2 : ℚ), (2 : ℚ), (2 : ℚ))] 1 20 [((2 : ℚ), (2 : ℚ), (2 : ℚ))]
      = (kmeansStep [((2 : ℚ), (2 : ℚ), (2 : ℚ))] 1)^[0 + 1]
          [((2 : ℚ), (2 : ℚ), (2 : ℚ))] := by
  have hconv : convergedB [((2 : ℚ), (2 : ℚ), (2 : ℚ))]
      ((kmeansStep [((2 : ℚ), (2 : ℚ), (2 : ℚ))] 1)^[0 + 1]
        [((2 : ℚ), (2 : ℚ), (2 : ℚ))]) = true := by
    norm_num [kmeansStep, buildClusters, updateCentroids, pushAt, closestCluster, assignGo,
      distLtB, colorDistanceSq, meanRGB, sumRGB, List.replicate, convergedB]
  exact ⟨hconv,
    (C4_iteration_cap_and_early_exit [((2 : ℚ), (2 : ℚ), (2 : ℚ))] 1 20
      [((2 : ℚ), (2 : ℚ), (2 : ℚ))]).2.2.1 0 (by norm_num)
      (by simpa using hconv) (fun j hj => absurd hj (by omega))⟩

/-- The update on `k` empty buckets keeps every centroid. -/
lemma updateCentroids_all_empty :
    ∀ (cs : List RGB) (k : ℕ), cs.length = k →
      updateCentroids cs (List.replicate k []) = cs := by
  intro cs
  induction cs with
  | nil => intro k h; simp [updateCentroids]
  | cons c cs ih =>
    intro k h
    cases k with
    | zero => simp at h
    | succ k =>
      rw [List.replicate_succ]
      simp only [updateCentroids, List.zipWith_cons_cons, List.length_nil, if_pos rfl]
      have := ih k (by simpa using h)
      rw [updateCentroids] at this
      rw [this]
      simp

/-- C8: on empty `points` input, for any `k ≥ 1` and any behavior of the two
random oracles, the seeding loop exits immediately (its guard
`usedIndices.size < pixels.length` is false), the assignment produces only
empty clusters, every update leaves the centroids unchanged — so the
per-cluster mean division, the only division in the algorithm, is never
executed — and the function terminates with exactly `k` centroids. -/
theorem C8_empty_input_safety (k : ℕ) (picks : List ℕ) (rand : ℕ → RGB) (maxIter : ℕ)
    (hk : 1 ≤ k) :
    initLoop [] k picks [] ∅ = ([], ∅) ∧
    (∀ (cs : List RGB) (acc : List (List RGB)), buildClusters cs [] acc = acc) ∧
    (∀ cs : List RGB, cs.length = k → kmeansStep [] k cs = cs) ∧
    (∀ (fuel : ℕ) (cs : List RGB), cs.length = k → kmeansLoop [] k fuel cs = cs) ∧
    (kMeansClustering [] k picks rand maxIter).length = k := by
  have hstep : ∀ cs : List RGB, cs.length = k → kmeansStep [] k cs = cs := by
    intro cs h
    rw [kmeansStep, buildClusters]
    exact updateCentroids_all_empty cs k h
  have hloop : ∀ (fuel : ℕ) (cs : List RGB), cs.length = k →
      kmeansLoop [] k fuel cs = cs := by
    intro fuel
    induction fuel with
    | zero => intro cs _; rfl
    | succ fuel _ =>
      intro cs h
      rw [kmeansLoop_succ, hstep cs h, if_pos (by simp [convergedB_self])]
  refine ⟨?_, fun cs acc => rfl, hstep, hloop, ?_⟩
  · cases picks with
    | nil => rfl
    | cons idx rest =>
      rw [initLoop, if_neg (by simp)]
  · rw [kMeansClustering, hloop maxIter _ (initCentroids_length [] k picks rand)]
    exact initCentroids_length [] k picks rand

theorem C8_empty_input_safety_witness :
    1 ≤ 3 ∧
    (kMeansClustering [] 3 [0, 0, 5] (fun _ => ((1 : ℚ), (2 : ℚ), (3 : ℚ))) 20).length = 3 :=
  ⟨by norm_num,
    (C8_empty_input_safety 3 [0, 0, 5] (fun _ => ((1 : ℚ), (2 : ℚ), (3 : ℚ))) 20
      (by norm_num)).2.2.2.2⟩

/-! ### The update step computes component-wise means; dead centroids survive -/

lemma sumRGB_go (l : List RGB) : ∀ acc : RGB,
    l.foldl (fun acc p => (acc.1 + p.1, acc.2.1 + p.2.1, acc.2.2 + p.2.2)) acc
      = (acc.1 + (l.map (fun p => p.1)).sum,
         acc.2.1 + (l.map (fun p => p.2.1)).sum,
         acc.2.2 + (l.map (fun p => p.2.2)).sum) := by
  induction l with
  | nil => intro acc; simp
  | cons p ps ih =>
    intro acc
    rw [List.foldl_cons, ih]
    simp only [List.map_cons, List.sum_cons]
    refine Prod.ext ?_ (Prod.ext ?_ ?_) <;> simp <;> ring

/-- The per-cluster sum is the component-wise sum of the assigned points. -/
lemma sumRGB_eq (l : List RGB) :
    sumRGB l = ((l.map (fun p => p.1)).sum, (l.map (fun p => p.2.1)).sum,
      (l.map (fun p => p.2.2)).sum) := by
  rw [sumRGB, sumRGB_go]
  simp

/-- The per-cluster mean is the component-wise arithmetic mean. -/
lemma meanRGB_eq (l : List RGB) :
    meanRGB l = ((l.map (fun p => p.1)).sum / l.length,
      (l.map (fun p => p.2.1)).sum / l.length,
      (l.map (fun p => p.2.2)).sum / l.length) := by
  rw [meanRGB, sumRGB_eq]

/-- A centroid that no pixel is assigned to along the whole (early-exiting)
run is still present, unchanged, in the loop's result. -/
lemma untouched_preserved (pixels : List RGB) (k : ℕ) (i : ℕ) :
    ∀ (fuel : ℕ) (cs : List RGB), cs.length = k → i < k →
      untouchedRun pixels k i fuel cs →
      (kmeansLoop pixels k fuel cs).getD i (0, 0, 0) = cs.getD i (0, 0, 0) := by
  intro fuel
  induction fuel with
  | zero => intro cs _ _ _; rfl
  | succ fuel ih =>
    intro cs hlen hi hrun
    obtain ⟨hnone, hrest⟩ := hrun
    have hempty : assignedTo cs pixels i = [] := by
      rw [assignedTo, List.filter_eq_nil]
      intro p hp
      simpa using hnone p hp
    have hkeep : (kmeansStep pixels k cs).getD i (0, 0, 0) = cs.getD i (0, 0, 0) := by
      rw [kmeansStep_getD pixels k cs hlen i hi, hempty]
      simp
    rw [kmeansLoop_succ]
    by_cases hc : convergedB cs (kmeansStep pixels k cs)
    · rw [if_pos hc]
      exact hkeep
    · rw [if_neg hc]
      rw [ih (kmeansStep pixels k cs) (kmeansStep_length pixels k cs hlen) hi
        (hrest (by simpa using hc))]
      exact hkeep

/-- C2: in every iteration's update step, a cluster that received at least
one point gets the component-wise arithmetic mean of its assigned points as
its new centroid, and a cluster that received zero points keeps its previous
centroid exactly; consequently a centroid that never receives a point along
the run appears in the loop's output equal to its initial value, still
occupying slot `i` of the k-length result. -/
theorem C2_update_mean_and_dead_centroids (pixels : List RGB) (k : ℕ) (cs : List RGB)
    (hlen : cs.length = k) (i : ℕ) (hi : i < k) :
    ((assignedTo cs pixels i).length = 0 →
      (kmeansStep pixels k cs).getD i (0, 0, 0) = cs.getD i (0, 0, 0)) ∧
    ((assignedTo cs pixels i).length ≠ 0 →
      (kmeansStep pixels k cs).getD i (0, 0, 0)
        = (((assignedTo cs pixels i).map (fun p => p.1)).sum / (assignedTo cs pixels i).length,
           ((assignedTo cs pixels i).map (fun p => p.2.1)).sum / (assignedTo cs pixels i).length,
           ((assignedTo cs pixels i).map (fun p => p.2.2)).sum
             / (assignedTo cs pixels i).length)) ∧
    (∀ fuel : ℕ, untouchedRun pixels k i fuel cs →
      (kmeansLoop pixels k fuel cs).getD i (0, 0, 0) = cs.getD i (0, 0, 0)) := by
  refine ⟨?_, ?_, fun fuel hrun => untouched_preserved pixels k i fuel cs hlen hi hrun⟩
  · intro hempty
    rw [kmeansStep_getD pixels k cs hlen i hi, if_pos hempty]
  · intro hne
    rw [kmeansStep_getD pixels k cs hlen i hi, if_neg hne, meanRGB_eq]

theorem C2_update_mean_and_dead_centroids_witness :
    ([((0 : ℚ), (0 : ℚ), (0 : ℚ)), ((200 : ℚ), (200 : ℚ), (200 : ℚ))].length = 2 ∧ 1 < 2 ∧
      untouchedRun [((0 : ℚ), (0 : ℚ), (0 : ℚ))] 2 1 1
        [((0 : ℚ), (0 : ℚ), (0 : ℚ)), ((200 : ℚ), (200 : ℚ), (200 : ℚ))]) ∧
    (kmeansLoop [((0 : ℚ), (0 : ℚ), (0 : ℚ))] 2 1
        [((0 : ℚ), (0 : ℚ), (0 : ℚ)), ((200 : ℚ), (200 : ℚ), (200 : ℚ))]).getD 1 (0, 0, 0)
      = [((0 : ℚ), (0 : ℚ), (0 : ℚ)), ((200 : ℚ), (200 : ℚ), (200 : ℚ))].getD 1 (0, 0, 0) := by
  have hrun : untouchedRun [((0 : ℚ), (0 : ℚ), (0 : ℚ))] 2 1 1
      [((0 : ℚ), (0 : ℚ), (0 : ℚ)), ((200 : ℚ), (200 : ℚ), (200 : ℚ))] := by
    refine ⟨?_, fun _ => trivial⟩
    intro p hp
    rcases List.mem_singleton.mp hp with rfl
    norm_num [closestCluster, assignGo, distLtB, colorDistanceSq]
  exact ⟨⟨by norm_num, by norm_num, hrun⟩,
    (C2_update_mean_and_dead_centroids [((0 : ℚ), (0 : ℚ), (0 : ℚ))] 2
      [((0 : ℚ), (0 : ℚ), (0 : ℚ)), ((200 : ℚ), (200 : ℚ), (200 : ℚ))] (by norm_num) 1
      (by norm_num)).2.2 1 hrun⟩

/-! ### The sampler: stride-4 scan plus three-way filter -/

lemma toQuads_nil : toQuads [] = [] := rfl

lemma toQuads_cons4 (r g b a : ℕ) (rest : List ℕ) :
    toQuads (r :: g :: b :: a :: rest) = (r, g, b, a) :: toQuads rest := rfl

lemma toQuads_tail : ∀ l : List ℕ, (toQuads l).tail = toQuads (List.drop 4 l)
  | [] => rfl
  | [_] => rfl
  | [_, _] => rfl
  | [_, _, _] => rfl
  | _ :: _ :: _ :: _ :: _ => rfl

lemma toQuads_drop : ∀ (n : ℕ) (l : List ℕ),
    (toQuads l).drop n = toQuads (List.drop (4 * n) l) := by
  intro n
  induction n with
  | zero => intro l; simp
  | succ n ih =>
    intro l
    have h1 : (toQuads l).drop (n + 1) = ((toQuads l).drop n).tail := by
      rw [List.tail_drop]
    rw [h1, ih l, toQuads_tail, List.drop_drop]
    congr 1

lemma keepPixel_iff (q : ℕ × ℕ × ℕ × ℕ) :
    keepPixel q = true
      ↔ (128 < q.2.2.2 ∧ 30 < q.1 + q.2.1 + q.2.2.1 ∧ q.1 + q.2.1 + q.2.2.1 < 735) := by
  rw [keepPixel]
  simp only [Bool.not_eq_true', Bool.or_eq_false_iff, decide_eq_false_iff_not, not_le]
  omega

lemma samplePixels_characterization :
    ∀ (n : ℕ) (data : List ℕ), data.length ≤ n →
      samplePixels data
        = ((every4 (toQuads data)).filter keepPixel).map (fun q => (q.1, q.2.1, q.2.2.1)) := by
  intro n
  induction n with
  | zero =>
    intro data h
    have : data = [] := List.length_eq_zero.mp (by omega)
    subst this
    simp [samplePixels_nil, toQuads_nil, every4_nil]
  | succ n ih =>
    intro data h
    match data with
    | [] => simp [samplePixels_nil, toQuads_nil, every4_nil]
    | [x] => simp [samplePixels_short [x] (by norm_num), toQuads, every4_nil]
    | [x, y] => simp [samplePixels_short [x, y] (by norm_num), toQuads, every4_nil]
    | [x, y, z] => simp [samplePixels_short [x, y, z] (by norm_num), toQuads, every4_nil]
    | r :: g :: b :: a :: rest =>
      rw [samplePixels_cons, toQuads_cons4, every4_cons, toQuads_drop 3 rest]
      have hrec := ih (List.drop 12 rest) (by
        have := List.length_drop 12 rest
        simp only [List.length_cons] at h
        omega)
      rw [hrec]
      rw [show (4 * 3 : ℕ) = 12 from rfl]
      by_cases hcond : 128 < a ∧ 30 < r + g + b ∧ r + g + b < 735
      · rw [if_pos hcond]
        rw [List.filter_cons_of_pos (by rw [keepPixel_iff]; exact hcond)]
        simp
      · rw [if_neg hcond]
        rw [List.filter_cons_of_neg (by simp only [keepPixel_iff]; exact hcond)]
        simp

/-- C5: the sample set consists of every 4th pixel of the scaled buffer in
scan order, keeping a scanned pixel iff none of `alpha ≤ 128`,
`R+G+B ≤ 30`, `R+G+B ≥ 735` holds. -/
theorem C5_stride_and_filter (data : List ℕ) :
    samplePixels data
      = ((every4 (toQuads data)).filter keepPixel).map (fun q => (q.1, q.2.1, q.2.2.1)) :=
  samplePixels_characterization data.length data le_rfl

/-! ### Degenerate fallback -/

lemma flattenRGBA_drop4 : ∀ ps : List (ℕ × ℕ × ℕ × ℕ),
    List.drop 4 (flattenRGBA ps) = flattenRGBA (ps.drop 1)
  | [] => rfl
  | (r, g, b, a) :: rest => by simp [flattenRGBA]

lemma flattenRGBA_drop12 (ps : List (ℕ × ℕ × ℕ × ℕ)) :
    List.drop 12 (flattenRGBA ps) = flattenRGBA (ps.drop 3) := by
  have h1 : List.drop 12 (flattenRGBA ps)
      = List.drop 4 (List.drop 4 (List.drop 4 (flattenRGBA ps))) := by
    rw [List.drop_drop, List.drop_drop]
  rw [h1, flattenRGBA_drop4, flattenRGBA_drop4, flattenRGBA_drop4,
    List.drop_drop, List.drop_drop]

lemma samplePixels_all_transparent :
    ∀ (n : ℕ) (ps : List (ℕ × ℕ × ℕ × ℕ)), ps.length ≤ n →
      (∀ q ∈ ps, q.2.2.2 = 0) → samplePixels (flattenRGBA ps) = [] := by
  intro n
  induction n with
  | zero =>
    intro ps h _
    have : ps = [] := List.length_eq_zero.mp (by omega)
    subst this
    exact samplePixels_nil
  | succ n ih =>
    intro ps h halpha
    match ps with
    | [] => exact samplePixels_nil
    | (r, g, b, a) :: rest =>
      have ha : a = 0 := halpha (r, g, b, a) (List.mem_cons_self _ _)
      rw [flattenRGBA, samplePixels_cons, flattenRGBA_drop12]
      rw [if_neg (by omega)]
      rw [List.nil_append]
      exact ih (rest.drop 3) (by
          have := List.length_drop 3 rest
          simp only [List.length_cons] at h
          omega)
        (fun q hq => halpha q (List.mem_cons_of_mem _ (List.drop_subset 3 rest hq)))

/-- C6: if filtering removes every pixel (for example when every pixel has
alpha 0), extraction does not fail and does not reach the clustering stage:
it returns exactly `["#000000"]` for every cluster count and every oracle
behavior. -/
theorem C6_empty_sample_fallback :
    (∀ ps : List (ℕ × ℕ × ℕ × ℕ), (∀ q ∈ ps, q.2.2.2 = 0) →
      samplePixels (flattenRGBA ps) = []) ∧
    (∀ (data : List ℕ) (k : ℕ) (picks : List ℕ) (rand : ℕ → RGB),
      samplePixels data = [] →
      extractFromImageElement data k picks rand = ["#000000"]) := by
  constructor
  · intro ps halpha
    exact samplePixels_all_transparent ps.length ps le_rfl halpha
  · intro data k picks rand hempty
    rw [extractFromImageElement]
    simp [hempty]

theorem C6_empty_sample_fallback_witness :
    (∀ q ∈ [((3 : ℕ), (4 : ℕ), (5 : ℕ), (0 : ℕ))], q.2.2.2 = 0) ∧
    extractFromImageElement (flattenRGBA [(3, 4, 5, 0)]) 4 [0]
      (fun _ => ((1 : ℚ), (1 : ℚ), (1 : ℚ))) = ["#000000"] :=
  ⟨by decide,
    C6_empty_sample_fallback.2 (flattenRGBA [(3, 4, 5, 0)]) 4 [0]
      (fun _ => ((1 : ℚ), (1 : ℚ), (1 : ℚ)))
      (C6_empty_sample_fallback.1 [(3, 4, 5, 0)] (by decide))⟩

/-! ### Initialization claim -/

/-- C7: initialization draws up to `k` distinct points (distinct indices,
tracked via the visited-index set, i.e. sampling without replacement) from
the input sample set; the draws stop short of `k` only when every index of
the sample set has been drawn, and in that case every remaining slot is
filled with an oracle color whose channels lie in `[0, 255]`; in all cases
exactly `k` initial centroids are produced.  Which indices and fill colors
appear is the random oracle's choice; their uniform distribution is a
property of `Math.random`, outside the code being modelled. -/
theorem C7_initialization (pixels : List RGB) (k : ℕ) (picks : List ℕ) (rand : ℕ → RGB)
    (hval : ∀ j ∈ picks, j < pixels.length)
    (hdone : initLoopDone pixels k picks)
    (hrand : ∀ n, boundedRGB (rand n)) :
    ∃ idxs : List ℕ,
      idxs.Nodup ∧
      (∀ j ∈ idxs, j < pixels.length) ∧
      idxs.length ≤ k ∧
      (idxs.length < k → idxs.length = pixels.length) ∧
      initCentroids pixels k picks rand
        = idxs.map (fun j => pixels.getD j (0, 0, 0))
          ++ (List.range (k - idxs.length)).map rand ∧
      (∀ c ∈ (List.range (k - idxs.length)).map rand, boundedRGB c) ∧
      (initCentroids pixels k picks rand).length = k := by
  obtain ⟨idxs, hnd, hval2, hlen, hexh, heq⟩ :=
    initCentroids_spec pixels k picks rand hval hdone
  refine ⟨idxs, hnd, hval2, hlen, hexh, heq, ?_, initCentroids_length pixels k picks rand⟩
  intro c hc
  obtain ⟨n, _, rfl⟩ := List.mem_map.mp hc
  exact hrand n

theorem C7_initialization_witness :
    ((∀ j ∈ [0, 1], j < [((1 : ℚ), (1 : ℚ), (1 : ℚ)), ((2 : ℚ), (2 : ℚ), (2 : ℚ))].length) ∧
      initLoopDone [((1 : ℚ), (1 : ℚ), (1 : ℚ)), ((2 : ℚ), (2 : ℚ), (2 : ℚ))] 3 [0, 1] ∧
      (∀ n : ℕ, boundedRGB ((fun _ => ((5 : ℚ), (5 : ℚ), (5 : ℚ))) n))) ∧
    ∃ idxs : List ℕ,
      idxs.Nodup ∧
      (∀ j ∈ idxs, j < [((1 : ℚ), (1 : ℚ), (1 : ℚ)), ((2 : ℚ), (2 : ℚ), (2 : ℚ))].length) ∧
      idxs.length ≤ 3 ∧
      (idxs.length < 3 →
        idxs.length = [((1 : ℚ), (1 : ℚ), (1 : ℚ)), ((2 : ℚ), (2 : ℚ), (2 : ℚ))].length) ∧
      initCentroids [((1 : ℚ), (1 : ℚ), (1 : ℚ)), ((2 : ℚ), (2 : ℚ), (2 : ℚ))] 3 [0, 1]
          (fun _ => ((5 : ℚ), (5 : ℚ), (5 : ℚ)))
        = idxs.map (fun j =>
            [((1 : ℚ), (1 : ℚ), (1 : ℚ)), ((2 : ℚ), (2 : ℚ), (2 : ℚ))].getD j (0, 0, 0))
          ++ (List.range (3 - idxs.length)).map (fun _ => ((5 : ℚ), (5 : ℚ), (5 : ℚ))) ∧
      (∀ c ∈ (List.range (3 - idxs.length)).map (fun _ => ((5 : ℚ), (5 : ℚ), (5 : ℚ))),
        boundedRGB c) ∧
      (initCentroids [((1 : ℚ), (1 : ℚ), (1 : ℚ)), ((2 : ℚ), (2 : ℚ), (2 : ℚ))] 3 [0, 1]
        (fun _ => ((5 : ℚ), (5 : ℚ), (5 : ℚ)))).length = 3 := by
  have hval : ∀ j ∈ [0, 1],
      j < [((1 : ℚ), (1 : ℚ), (1 : ℚ)), ((2 : ℚ), (2 : ℚ), (2 : ℚ))].length := by
    intro j hj
    rcases List.mem_cons.mp hj with rfl | hj2
    · simp
    · rcases List.mem_singleton.mp hj2 with rfl
      simp
  have hdone : initLoopDone [((1 : ℚ), (1 : ℚ), (1 : ℚ)), ((2 : ℚ), (2 : ℚ), (2 : ℚ))] 3 [0, 1] := by
    norm_num [initLoopDone, initLoop]
  have hrand : ∀ n : ℕ, boundedRGB ((fun _ => ((5 : ℚ), (5 : ℚ), (5 : ℚ))) n) := by
    intro n
    norm_num [boundedRGB]
  exact ⟨⟨hval, hdone, hrand⟩,
    C7_initialization [((1 : ℚ), (1 : ℚ), (1 : ℚ)), ((2 : ℚ), (2 : ℚ), (2 : ℚ))] 3 [0, 1]
      (fun _ => ((5 : ℚ), (5 : ℚ), (5 : ℚ))) hval hdone hrand⟩

/-! ### Channel bounds are preserved from samples to output centroids -/

lemma boundedRGB_zero : boundedRGB (0, 0, 0) := by
  norm_num [boundedRGB]

lemma mean_component_bounded (xs : List ℚ) (hne : xs ≠ [])
    (h : ∀ x ∈ xs, 0 ≤ x ∧ x ≤ 255) :
    0 ≤ xs.sum / xs.length ∧ xs.sum / xs.length ≤ 255 := by
  have hlen : 0 < (xs.length : ℚ) := by
    have := List.length_pos.mpr hne
    exact_mod_cast this
  constructor
  · apply div_nonneg _ (le_of_lt hlen)
    exact List.sum_nonneg (fun x hx => (h x hx).1)
  · rw [div_le_iff hlen]
    have := List.sum_le_card_nsmul xs 255 (fun x hx => (h x hx).2)
    simpa [nsmul_eq_mul, mul_comm] using this

lemma boundedRGB_mean (l : List RGB) (hne : l ≠ []) (h : ∀ p ∈ l, boundedRGB p) :
    boundedRGB (meanRGB l) := by
  rw [meanRGB_eq, boundedRGB]
  have hne1 : l.map (fun p : RGB => p.1) ≠ [] := by simpa using hne
  have hne2 : l.map (fun p : RGB => p.2.1) ≠ [] := by simpa using hne
  have hne3 : l.map (fun p : RGB => p.2.2) ≠ [] := by simpa using hne
  have h1 := mean_component_bounded (l.map (fun p => p.1)) hne1 (by
    intro x hx
    obtain ⟨p, hp, rfl⟩ := List.mem_map.mp hx
    exact (h p hp).1)
  have h2 := mean_component_bounded (l.map (fun p => p.2.1)) hne2 (by
    intro x hx
    obtain ⟨p, hp, rfl⟩ := List.mem_map.mp hx
    exact (h p hp).2.1)
  have h3 := mean_component_bounded (l.map (fun p => p.2.2)) hne3 (by
    intro x hx
    obtain ⟨p, hp, rfl⟩ := List.mem_map.mp hx
    exact (h p hp).2.2)
  simp only [List.length_map] at h1 h2 h3
  exact ⟨h1, h2, h3⟩

lemma boundedRGB_step (pixels : List RGB) (k : ℕ) (cs : List RGB) (hlen : cs.length = k)
    (hpix : ∀ p ∈ pixels, boundedRGB p) (hcs : ∀ c ∈ cs, boundedRGB c) :
    ∀ c ∈ kmeansStep pixels k cs, boundedRGB c := by
  intro c hc
  obtain ⟨j, hj, rfl⟩ := List.getElem_of_mem hc
  have hjk : j < k := by
    have := kmeansStep_length pixels k cs hlen
    omega
  have hgd : (kmeansStep pixels k cs)[j] = (kmeansStep pixels k cs).getD j (0, 0, 0) := by
    rw [List.getD_eq_getElem _ _ hj]
  rw [hgd, kmeansStep_getD pixels k cs hlen j hjk]
  by_cases hempty : (assignedTo cs pixels j).length = 0
  · rw [if_pos hempty]
    by_cases hjcs : j < cs.length
    · exact hcs _ (getD_mem_of_lt cs (0, 0, 0) j hjcs)
    · rw [List.getD_eq_default _ _ (by omega)]
      exact boundedRGB_zero
  · rw [if_neg hempty]
    refine boundedRGB_mean _ (by
      intro hnil
      rw [hnil] at hempty
      simp at hempty) ?_
    intro p hp
    exact hpix p (List.mem_of_mem_filter hp)

lemma boundedRGB_loop (pixels : List RGB) (k : ℕ)
    (hpix : ∀ p ∈ pixels, boundedRGB p) :
    ∀ (fuel : ℕ) (cs : List RGB), cs.length = k → (∀ c ∈ cs, boundedRGB c) →
      ∀ c ∈ kmeansLoop pixels k fuel cs, boundedRGB c := by
  intro fuel
  induction fuel with
  | zero => intro cs _ hcs; exact hcs
  | succ fuel ih =>
    intro cs hlen hcs
    rw [kmeansLoop_succ]
    by_cases hconv : convergedB cs (kmeansStep pixels k cs)
    · rw [if_pos hconv]
      exact boundedRGB_step pixels k cs hlen hpix hcs
    · rw [if_neg hconv]
      exact ih _ (kmeansStep_length pixels k cs hlen)
        (boundedRGB_step pixels k cs hlen hpix hcs)

/-- Every centroid produced by the seeding loop is an input pixel, a member
of the incoming accumulator, or the (never actually used) default. -/
lemma initLoop_mem (pixels : List RGB) (k : ℕ) :
    ∀ (picks : List ℕ) (cs : List RGB) (used : Finset ℕ) (c : RGB),
      c ∈ (initLoop pixels k picks cs used).1 → c ∈ cs ∨ c ∈ pixels ∨ c = (0, 0, 0) := by
  intro picks
  induction picks with
  | nil => intro cs used c hc; exact Or.inl (by simpa [initLoop] using hc)
  | cons idx rest ih =>
    intro cs used c hc
    rw [initLoop] at hc
    by_cases hcond : cs.length < k ∧ used.card < pixels.length
    · rw [if_pos hcond] at hc
      by_cases hmem : idx ∈ used
      · rw [if_pos hmem] at hc
        exact ih cs used c hc
      · rw [if_neg hmem] at hc
        rcases ih _ _ c hc with h1 | h2 | h3
        · rcases List.mem_append.mp h1 with h4 | h5
          · exact Or.inl h4
          · rcases List.mem_singleton.mp h5 with rfl
            by_cases hidx : idx < pixels.length
            · exact Or.inr (Or.inl (getD_mem_of_lt pixels (0, 0, 0) idx hidx))
            · exact Or.inr (Or.inr (List.getD_eq_default _ _ (by omega)))
        · exact Or.inr (Or.inl h2)
        · exact Or.inr (Or.inr h3)
    · rw [if_neg hcond] at hc
      exact Or.inl hc

lemma boundedRGB_init (pixels : List RGB) (k : ℕ) (picks : List ℕ) (rand : ℕ → RGB)
    (hpix : ∀ p ∈ pixels, boundedRGB p) (hrand : ∀ n, boundedRGB (rand n)) :
    ∀ c ∈ initCentroids pixels k picks rand, boundedRGB c := by
  intro c hc
  rw [initCentroids,
    fillLoop_eq k rand (k - (initLoop pixels k picks [] ∅).1.length) _ 0 rfl] at hc
  rcases List.mem_append.mp hc with h1 | h2
  · rcases initLoop_mem pixels k picks [] ∅ c h1 with h3 | h4 | h5
    · simp at h3
    · exact hpix c h4
    · rw [h5]; exact boundedRGB_zero
  · obtain ⟨n, _, rfl⟩ := List.mem_map.mp h2
    exact hrand (0 + n)

lemma boundedRGB_clustering (pixels : List RGB) (k : ℕ) (picks : List ℕ) (rand : ℕ → RGB)
    (maxIter : ℕ) (hpix : ∀ p ∈ pixels, boundedRGB p) (hrand : ∀ n, boundedRGB (rand n)) :
    ∀ c ∈ kMeansClustering pixels k picks rand maxIter, boundedRGB c := by
  rw [kMeansClustering]
  exact boundedRGB_loop pixels k hpix maxIter _ (initCentroids_length pixels k picks rand)
    (boundedRGB_init pixels k picks rand hpix hrand)

/-- Every channel of every sampled pixel is one of the bytes of the data
array. -/
lemma samplePixels_mem_data :
    ∀ (n : ℕ) (data : List ℕ), data.length ≤ n →
      ∀ p ∈ samplePixels data, p.1 ∈ data ∧ p.2.1 ∈ data ∧ p.2.2 ∈ data := by
  intro n
  induction n with
  | zero =>
    intro data h p hp
    have : data = [] := List.length_eq_zero.mp (by omega)
    subst this
    rw [samplePixels_nil] at hp
    simp at hp
  | succ n ih =>
    intro data h p hp
    match data with
    | [] => rw [samplePixels_nil] at hp; simp at hp
    | [x] => rw [samplePixels_short [x] (by norm_num)] at hp; simp at hp
    | [x, y] => rw [samplePixels_short [x, y] (by norm_num)] at hp; simp at hp
    | [x, y, z] => rw [samplePixels_short [x, y, z] (by norm_num)] at hp; simp at hp
    | r :: g :: b :: a :: rest =>
      rw [samplePixels_cons] at hp
      rcases List.mem_append.mp hp with h1 | h2
      · by_cases hcond : 128 < a ∧ 30 < r + g + b ∧ r + g + b < 735
        · rw [if_pos hcond] at h1
          rcases List.mem_singleton.mp h1 with rfl
          refine ⟨by simp, by simp, by simp⟩
        · rw [if_neg hcond] at h1
          simp at h1
      · have hrec := ih (List.drop 12 rest) (by
          have := List.length_drop 12 rest
          simp only [List.length_cons] at h
          omega) p h2
        have hsub : ∀ x : ℕ, x ∈ List.drop 12 rest → x ∈ r :: g :: b :: a :: rest := by
          intro x hx
          exact List.mem_cons_of_mem _ (List.mem_cons_of_mem _ (List.mem_cons_of_mem _
            (List.mem_cons_of_mem _ (List.drop_subset 12 rest hx))))
        exact ⟨hsub _ hrec.1, hsub _ hrec.2.1, hsub _ hrec.2.2⟩

/-! ### Rounding and hex serialization -/

lemma jsRound_bounds (q : ℚ) (h0 : 0 ≤ q) (h255 : q ≤ 255) :
    0 ≤ jsRound q ∧ jsRound q ≤ 255 := by
  constructor
  · rw [jsRound]
    have : (0 : ℚ) ≤ q + 1 / 2 := by linarith
    exact Int.floor_nonneg.mpr this
  · have h2 : jsRound q < 256 := by
      rw [jsRound]
      refine Int.floor_lt.mpr ?_
      push_cast
      linarith
    omega

set_option maxHeartbeats 1000000 in
set_option maxRecDepth 10000 in
lemma toDigits_facts :
    ∀ n < 256, ((Nat.toDigits 16 n).length = 1 ∨ (Nat.toDigits 16 n).length = 2) ∧
      ∀ c ∈ Nat.toDigits 16 n, c ∈ hexDigits := by decide

lemma toHexChannel_spec (q : ℚ) (h0 : 0 ≤ q) (h255 : q ≤ 255) :
    (toHexChannel q).length = 2 ∧ ∀ c ∈ (toHexChannel q).data, c ∈ hexDigits := by
  have hjr := jsRound_bounds q h0 h255
  have hlt : (jsRound q).toNat < 256 := by omega
  have hfacts := toDigits_facts (jsRound q).toNat hlt
  rw [toHexChannel]
  constructor
  · show (String.mk _).length = 2
    simp only [String.length]
    rw [List.length_append, List.length_replicate]
    rcases hfacts.1 with h | h <;> rw [h]
  · intro c hc
    have hc2 : c ∈ List.replicate (2 - (Nat.toDigits 16 (jsRound q).toNat).length) '0'
        ++ Nat.toDigits 16 (jsRound q).toNat := hc
    rcases List.mem_append.mp hc2 with h1 | h2
    · rw [List.eq_of_mem_replicate h1]
      simp [hexDigits]
    · exact hfacts.2 c h2

lemma rgbToHexString_spec (c : RGB) (hb : boundedRGB c) :
    (rgbToHexString c).length = 7 ∧
    (rgbToHexString c).data.head? = some '#' ∧
    ∀ ch ∈ (rgbToHexString c).data.tail, ch ∈ hexDigits := by
  obtain ⟨⟨h10, h11⟩, ⟨h20, h21⟩, h30, h31⟩ := hb
  obtain ⟨hl1, hc1⟩ := toHexChannel_spec c.1 h10 h11
  obtain ⟨hl2, hc2⟩ := toHexChannel_spec c.2.1 h20 h21
  obtain ⟨hl3, hc3⟩ := toHexChannel_spec c.2.2 h30 h31
  have hdata : (rgbToHexString c).data
      = '#' :: ((toHexChannel c.1).data ++ (toHexChannel c.2.1).data
          ++ (toHexChannel c.2.2).data) := by
    rw [rgbToHexString]
    simp [String.data_append]
  refine ⟨?_, ?_, ?_⟩
  · have : (rgbToHexString c).length = (rgbToHexString c).data.length := rfl
    rw [this, hdata]
    simp only [List.length_cons, List.length_append]
    have e1 : (toHexChannel c.1).data.length = 2 := hl1
    have e2 : (toHexChannel c.2.1).data.length = 2 := hl2
    have e3 : (toHexChannel c.2.2).data.length = 2 := hl3
    omega
  · rw [hdata]; rfl
  · rw [hdata]
    intro ch hch
    simp only [List.tail_cons] at hch
    rcases List.mem_append.mp hch with h1 | h2
    · rcases List.mem_append.mp h1 with h3 | h4
      · exact hc1 ch h3
      · exact hc2 ch h4
    · exact hc3 ch h2

/-- When some pixel survives filtering, extraction is exactly the hex
rendering of the clustering result. -/
lemma extract_eq_map (data : List ℕ) (k : ℕ) (picks : List ℕ) (rand : ℕ → RGB)
    (hne : samplePixels data ≠ []) :
    extractFromImageElement data k picks rand
      = (kMeansClustering
          ((samplePixels data).map (fun t => ((t.1 : ℚ), (t.2.1 : ℚ), (t.2.2 : ℚ))))
          k picks rand maxIterationsDefault).map rgbToHexString := by
  rw [extractFromImageElement]
  simp only [List.length_eq_zero]
  rw [if_neg hne]

/-- C9: every returned color is (the serialization of) a centroid of the
clustering result whose three channels lie in `[0, 255]` and round to
integers in `[0, 255]`, rendered as `#rrggbb`: length 7, a leading `#`, and
six lowercase hex digit characters, each channel zero-padded to two
digits. -/
theorem C9_hex_output (data : List ℕ) (k : ℕ) (picks : List ℕ) (rand : ℕ → RGB)
    (hdata : ∀ x ∈ data, x ≤ 255)
    (hrand : ∀ n, boundedRGB (rand n))
    (hne : samplePixels data ≠ []) :
    ∀ s ∈ extractFromImageElement data k picks rand,
      ∃ c ∈ kMeansClustering
          ((samplePixels data).map (fun t => ((t.1 : ℚ), (t.2.1 : ℚ), (t.2.2 : ℚ))))
          k picks rand maxIterationsDefault,
        boundedRGB c ∧
        (0 ≤ jsRound c.1 ∧ jsRound c.1 ≤ 255) ∧
        (0 ≤ jsRound c.2.1 ∧ jsRound c.2.1 ≤ 255) ∧
        (0 ≤ jsRound c.2.2 ∧ jsRound c.2.2 ≤ 255) ∧
        s = rgbToHexString c ∧
        s.length = 7 ∧
        s.data.head? = some '#' ∧
        (∀ ch ∈ s.data.tail, ch ∈ hexDigits) := by
  intro s hs
  rw [extract_eq_map data k picks rand hne] at hs
  obtain ⟨c, hc, rfl⟩ := List.mem_map.mp hs
  have hpix : ∀ p ∈ (samplePixels data).map
      (fun t => ((t.1 : ℚ), (t.2.1 : ℚ), (t.2.2 : ℚ))), boundedRGB p := by
    intro p hp
    obtain ⟨t, ht, rfl⟩ := List.mem_map.mp hp
    obtain ⟨h1, h2, h3⟩ := samplePixels_mem_data data.length data le_rfl t ht
    refine ⟨⟨by positivity, ?_⟩, ⟨by positivity, ?_⟩, by positivity, ?_⟩
    · show (t.1 : ℚ) ≤ 255
      exact_mod_cast hdata _ h1
    · show (t.2.1 : ℚ) ≤ 255
      exact_mod_cast hdata _ h2
    · show (t.2.2 : ℚ) ≤ 255
      exact_mod_cast hdata _ h3
  have hbc : boundedRGB c := boundedRGB_clustering _ k picks rand maxIterationsDefault
    hpix hrand c hc
  obtain ⟨⟨h10, h11⟩, ⟨h20, h21⟩, h30, h31⟩ := hbc
  obtain ⟨hlen, hhead, htail⟩ := rgbToHexString_spec c ⟨⟨h10, h11⟩, ⟨h20, h21⟩, h30, h31⟩
  exact ⟨c, hc, ⟨⟨h10, h11⟩, ⟨h20, h21⟩, h30, h31⟩,
    jsRound_bounds c.1 h10 h11, jsRound_bounds c.2.1 h20 h21, jsRound_bounds c.2.2 h30 h31,
    rfl, hlen, hhead, htail⟩

theorem C9_hex_output_witness :
    ((∀ x ∈ [10, 20, 30, 255], x ≤ 255) ∧
      (∀ n : ℕ, boundedRGB ((fun _ => ((5 : ℚ), (5 : ℚ), (5 : ℚ))) n)) ∧
      samplePixels [10, 20, 30, 255] ≠ []) ∧
    ∀ s ∈ extractFromImageElement [10, 20, 30, 255] 1 [0]
        (fun _ => ((5 : ℚ), (5 : ℚ), (5 : ℚ))),
      ∃ c ∈ kMeansClustering
          ((samplePixels [10, 20, 30, 255]).map
            (fun t => ((t.1 : ℚ), (t.2.1 : ℚ), (t.2.2 : ℚ))))
          1 [0] (fun _ => ((5 : ℚ), (5 : ℚ), (5 : ℚ))) maxIterationsDefault,
        boundedRGB c ∧
        (0 ≤ jsRound c.1 ∧ jsRound c.1 ≤ 255) ∧
        (0 ≤ jsRound c.2.1 ∧ jsRound c.2.1 ≤ 255) ∧
        (0 ≤ jsRound c.2.2 ∧ jsRound c.2.2 ≤ 255) ∧
        s = rgbToHexString c ∧
        s.length = 7 ∧
        s.data.head? = some '#' ∧
        (∀ ch ∈ s.data.tail, ch ∈ hexDigits) := by
  have hdata : ∀ x ∈ [10, 20, 30, 255], x ≤ 255 := by decide
  have hrand : ∀ n : ℕ, boundedRGB ((fun _ => ((5 : ℚ), (5 : ℚ), (5 : ℚ))) n) := by
    intro n
    norm_num [boundedRGB]
  have hne : samplePixels [10, 20, 30, 255] ≠ [] := by
    rw [show (10 : ℕ) :: 20 :: 30 :: 255 :: [] = 10 :: 20 :: 30 :: 255 :: ([] : List ℕ) from rfl,
      samplePixels_cons]
    simp
  exact ⟨⟨hdata, hrand, hne⟩,
    C9_hex_output [10, 20, 30, 255] 1 [0] (fun _ => ((5 : ℚ), (5 : ℚ), (5 : ℚ)))
      hdata hrand hne⟩

/-! ### The synthetic two-cluster benchmark -/


lemma list_eq_pair (l : List RGB) (h : l.length = 2) :
    l = [l.getD 0 (0, 0, 0), l.getD 1 (0, 0, 0)] := by
  obtain ⟨a, b, rfl⟩ := List.length_eq_two.mp h
  rfl

lemma kmeansStep_pair (pixels : List RGB) (v0 v1 : RGB) :
    kmeansStep pixels 2 [v0, v1]
      = [if (assignedTo [v0, v1] pixels 0).length = 0 then v0
           else meanRGB (assignedTo [v0, v1] pixels 0),
         if (assignedTo [v0, v1] pixels 1).length = 0 then v1
           else meanRGB (assignedTo [v0, v1] pixels 1)] := by
  have hlen : kmeansStep pixels 2 [v0, v1] = [(kmeansStep pixels 2 [v0, v1]).getD 0 (0,0,0),
      (kmeansStep pixels 2 [v0, v1]).getD 1 (0,0,0)] :=
    list_eq_pair _ (kmeansStep_length pixels 2 [v0, v1] (by simp))
  rw [hlen, kmeansStep_getD pixels 2 [v0, v1] (by simp) 0 (by norm_num),
    kmeansStep_getD pixels 2 [v0, v1] (by simp) 1 (by norm_num)]
  simp only [List.getD_cons_zero, List.getD_cons_succ]

lemma assignedTo_twoCluster (cs : List RGB) (i : ℕ) :
    assignedTo cs twoClusterSample i
      = (if closestCluster cs ((0 : ℚ), (0 : ℚ), (0 : ℚ)) == i
           then List.replicate 50 ((0 : ℚ), (0 : ℚ), (0 : ℚ)) else [])
        ++ (if closestCluster cs ((255 : ℚ), (255 : ℚ), (255 : ℚ)) == i
           then List.replicate 50 ((255 : ℚ), (255 : ℚ), (255 : ℚ)) else []) := by
  rw [assignedTo, twoClusterSample, List.filter_append, List.filter_replicate,
    List.filter_replicate]

lemma stepBB : kmeansStep twoClusterSample 2
      [((0 : ℚ), (0 : ℚ), (0 : ℚ)), ((0 : ℚ), (0 : ℚ), (0 : ℚ))]
    = [((255 / 2 : ℚ), (255 / 2 : ℚ), (255 / 2 : ℚ)), ((0 : ℚ), (0 : ℚ), (0 : ℚ))] := by
  rw [kmeansStep_pair]
  have hB : closestCluster [((0 : ℚ), (0 : ℚ), (0 : ℚ)), ((0 : ℚ), (0 : ℚ), (0 : ℚ))]
      ((0 : ℚ), (0 : ℚ), (0 : ℚ)) = 0 := by
    norm_num [closestCluster, assignGo, distLtB, colorDistanceSq]
  have hW : closestCluster [((0 : ℚ), (0 : ℚ), (0 : ℚ)), ((0 : ℚ), (0 : ℚ), (0 : ℚ))]
      ((255 : ℚ), (255 : ℚ), (255 : ℚ)) = 0 := by
    norm_num [closestCluster, assignGo, distLtB, colorDistanceSq]
  rw [assignedTo_twoCluster, assignedTo_twoCluster, hB, hW]
  norm_num [meanRGB_eq, List.map_append, List.map_replicate, List.sum_replicate, nsmul_eq_mul]



lemma stepGB : kmeansStep twoClusterSample 2
      [((255 / 2 : ℚ), (255 / 2 : ℚ), (255 / 2 : ℚ)), ((0 : ℚ), (0 : ℚ), (0 : ℚ))]
    = [((255 : ℚ), (255 : ℚ), (255 : ℚ)), ((0 : ℚ), (0 : ℚ), (0 : ℚ))] := by
  rw [kmeansStep_pair]
  have hB : closestCluster [((255 / 2 : ℚ), (255 / 2 : ℚ), (255 / 2 : ℚ)),
      ((0 : ℚ), (0 : ℚ), (0 : ℚ))] ((0 : ℚ), (0 : ℚ), (0 : ℚ)) = 1 := by
    norm_num [closestCluster, assignGo, distLtB, colorDistanceSq]
  have hW : closestCluster [((255 / 2 : ℚ), (255 / 2 : ℚ), (255 / 2 : ℚ)),
      ((0 : ℚ), (0 : ℚ), (0 : ℚ))] ((255 : ℚ), (255 : ℚ), (255 : ℚ)) = 0 := by
    norm_num [closestCluster, assignGo, distLtB, colorDistanceSq]
  rw [assignedTo_twoCluster, assignedTo_twoCluster, hB, hW]
  norm_num [meanRGB_eq, List.map_append, List.map_replicate, List.sum_replicate, nsmul_eq_mul]

lemma stepWB : kmeansStep twoClusterSample 2
      [((255 : ℚ), (255 : ℚ), (255 : ℚ)), ((0 : ℚ), (0 : ℚ), (0 : ℚ))]
    = [((255 : ℚ), (255 : ℚ), (255 : ℚ)), ((0 : ℚ), (0 : ℚ), (0 : ℚ))] := by
  rw [kmeansStep_pair]
  have hB : closestCluster [((255 : ℚ), (255 : ℚ), (255 : ℚ)),
      ((0 : ℚ), (0 : ℚ), (0 : ℚ))] ((0 : ℚ), (0 : ℚ), (0 : ℚ)) = 1 := by
    norm_num [closestCluster, assignGo, distLtB, colorDistanceSq]
  have hW : closestCluster [((255 : ℚ), (255 : ℚ), (255 : ℚ)),
      ((0 : ℚ), (0 : ℚ), (0 : ℚ))] ((255 : ℚ), (255 : ℚ), (255 : ℚ)) = 0 := by
    norm_num [closestCluster, assignGo, distLtB, colorDistanceSq]
  rw [assignedTo_twoCluster, assignedTo_twoCluster, hB, hW]
  norm_num [meanRGB_eq, List.map_append, List.map_replicate, List.sum_replicate, nsmul_eq_mul]

lemma convBBfalse : convergedB
      [((0 : ℚ), (0 : ℚ), (0 : ℚ)), ((0 : ℚ), (0 : ℚ), (0 : ℚ))]
      [((255 / 2 : ℚ), (255 / 2 : ℚ), (255 / 2 : ℚ)), ((0 : ℚ), (0 : ℚ), (0 : ℚ))] = false := by
  norm_num [convergedB, colorDistanceSq]

lemma convGBfalse : convergedB
      [((255 / 2 : ℚ), (255 / 2 : ℚ), (255 / 2 : ℚ)), ((0 : ℚ), (0 : ℚ), (0 : ℚ))]
      [((255 : ℚ), (255 : ℚ), (255 : ℚ)), ((0 : ℚ), (0 : ℚ), (0 : ℚ))] = false := by
  norm_num [convergedB, colorDistanceSq]

lemma run_BB :
    ((kmeansStep twoClusterSample 2)^[3]
        [((0 : ℚ), (0 : ℚ), (0 : ℚ)), ((0 : ℚ), (0 : ℚ), (0 : ℚ))]
      = [((255 : ℚ), (255 : ℚ), (255 : ℚ)), ((0 : ℚ), (0 : ℚ), (0 : ℚ))]) ∧
    convergedB ((kmeansStep twoClusterSample 2)^[2]
        [((0 : ℚ), (0 : ℚ), (0 : ℚ)), ((0 : ℚ), (0 : ℚ), (0 : ℚ))])
      ((kmeansStep twoClusterSample 2)^[3]
        [((0 : ℚ), (0 : ℚ), (0 : ℚ)), ((0 : ℚ), (0 : ℚ), (0 : ℚ))]) = true ∧
    (∀ j < 2, convergedB ((kmeansStep twoClusterSample 2)^[j]
        [((0 : ℚ), (0 : ℚ), (0 : ℚ)), ((0 : ℚ), (0 : ℚ), (0 : ℚ))])
      ((kmeansStep twoClusterSample 2)^[j + 1]
        [((0 : ℚ), (0 : ℚ), (0 : ℚ)), ((0 : ℚ), (0 : ℚ), (0 : ℚ))]) = false) ∧
    kmeansLoop twoClusterSample 2 20
        [((0 : ℚ), (0 : ℚ), (0 : ℚ)), ((0 : ℚ), (0 : ℚ), (0 : ℚ))]
      = (kmeansStep twoClusterSample 2)^[3]
        [((0 : ℚ), (0 : ℚ), (0 : ℚ)), ((0 : ℚ), (0 : ℚ), (0 : ℚ))] := by
  have i1 : (kmeansStep twoClusterSample 2)^[1]
      [((0 : ℚ), (0 : ℚ), (0 : ℚ)), ((0 : ℚ), (0 : ℚ), (0 : ℚ))]
      = [((255 / 2 : ℚ), (255 / 2 : ℚ), (255 / 2 : ℚ)), ((0 : ℚ), (0 : ℚ), (0 : ℚ))] := by
    rw [Function.iterate_one, stepBB]
  have i2 : (kmeansStep twoClusterSample 2)^[2]
      [((0 : ℚ), (0 : ℚ), (0 : ℚ)), ((0 : ℚ), (0 : ℚ), (0 : ℚ))]
      = [((255 : ℚ), (255 : ℚ), (255 : ℚ)), ((0 : ℚ), (0 : ℚ), (0 : ℚ))] := by
    rw [show (2 : ℕ) = 1 + 1 from rfl, Function.iterate_succ_apply', i1, stepGB]
  have i3 : (kmeansStep twoClusterSample 2)^[3]
      [((0 : ℚ), (0 : ℚ), (0 : ℚ)), ((0 : ℚ), (0 : ℚ), (0 : ℚ))]
      = [((255 : ℚ), (255 : ℚ), (255 : ℚ)), ((0 : ℚ), (0 : ℚ), (0 : ℚ))] := by
    rw [show (3 : ℕ) = 2 + 1 from rfl, Function.iterate_succ_apply', i2, stepWB]
  have hP2 : convergedB ((kmeansStep twoClusterSample 2)^[2]
      [((0 : ℚ), (0 : ℚ), (0 : ℚ)), ((0 : ℚ), (0 : ℚ), (0 : ℚ))])
      ((kmeansStep twoClusterSample 2)^[3]
      [((0 : ℚ), (0 : ℚ), (0 : ℚ)), ((0 : ℚ), (0 : ℚ), (0 : ℚ))]) = true := by
    rw [i2, i3]
    exact convergedB_self _
  have hPj : ∀ j < 2, convergedB ((kmeansStep twoClusterSample 2)^[j]
      [((0 : ℚ), (0 : ℚ), (0 : ℚ)), ((0 : ℚ), (0 : ℚ), (0 : ℚ))])
      ((kmeansStep twoClusterSample 2)^[j + 1]
      [((0 : ℚ), (0 : ℚ), (0 : ℚ)), ((0 : ℚ), (0 : ℚ), (0 : ℚ))]) = false := by
    intro j hj
    interval_cases j
    · rw [Function.iterate_zero_apply, i1]
      exact convBBfalse
    · rw [i1, i2]
      exact convGBfalse
  exact ⟨i3, hP2, hPj, kmeansLoop_early twoClusterSample 2 2 20 _ (by norm_num) hP2 hPj⟩



lemma twoClusterSample_length : twoClusterSample.length = 100 := by
  simp [twoClusterSample]

lemma twoClusterSample_getD (t : ℕ) (ht : t < 100) :
    twoClusterSample.getD t (0, 0, 0)
      = if t < 50 then ((0 : ℚ), (0 : ℚ), (0 : ℚ)) else ((255 : ℚ), (255 : ℚ), (255 : ℚ)) := by
  rw [List.getD_eq_getElem?_getD,
    show twoClusterSample
      = List.replicate 50 ((0 : ℚ), (0 : ℚ), (0 : ℚ))
        ++ List.replicate 50 ((255 : ℚ), (255 : ℚ), (255 : ℚ)) from rfl]
  by_cases h : t < 50
  · rw [if_pos h, List.getElem?_append_left (by simpa using h)]
    rw [List.getElem?_eq_getElem (by simpa using h)]
    rw [List.getElem_replicate]
    rfl
  · rw [if_neg h, List.getElem?_append_right (by simpa using h)]
    rw [List.getElem?_eq_getElem (by simp; omega)]
    rw [List.getElem_replicate]
    rfl




lemma stepBW : kmeansStep twoClusterSample 2
      [((0 : ℚ), (0 : ℚ), (0 : ℚ)), ((255 : ℚ), (255 : ℚ), (255 : ℚ))]
    = [((0 : ℚ), (0 : ℚ), (0 : ℚ)), ((255 : ℚ), (255 : ℚ), (255 : ℚ))] := by
  rw [kmeansStep_pair]
  have hB : closestCluster [((0 : ℚ), (0 : ℚ), (0 : ℚ)), ((255 : ℚ), (255 : ℚ), (255 : ℚ))]
      ((0 : ℚ), (0 : ℚ), (0 : ℚ)) = 0 := by
    norm_num [closestCluster, assignGo, distLtB, colorDistanceSq]
  have hW : closestCluster [((0 : ℚ), (0 : ℚ), (0 : ℚ)), ((255 : ℚ), (255 : ℚ), (255 : ℚ))]
      ((255 : ℚ), (255 : ℚ), (255 : ℚ)) = 1 := by
    norm_num [closestCluster, assignGo, distLtB, colorDistanceSq]
  rw [assignedTo_twoCluster, assignedTo_twoCluster, hB, hW]
  norm_num [meanRGB_eq, List.map_append, List.map_replicate, List.sum_replicate, nsmul_eq_mul]

lemma stepWW : kmeansStep twoClusterSample 2
      [((255 : ℚ), (255 : ℚ), (255 : ℚ)), ((255 : ℚ), (255 : ℚ), (255 : ℚ))]
    = [((255 / 2 : ℚ), (255 / 2 : ℚ), (255 / 2 : ℚ)), ((255 : ℚ), (255 : ℚ), (255 : ℚ))] := by
  rw [kmeansStep_pair]
  have hB : closestCluster [((255 : ℚ), (255 : ℚ), (255 : ℚ)), ((255 : ℚ), (255 : ℚ), (255 : ℚ))]
      ((0 : ℚ), (0 : ℚ), (0 : ℚ)) = 0 := by
    norm_num [closestCluster, assignGo, distLtB, colorDistanceSq]
  have hW : closestCluster [((255 : ℚ), (255 : ℚ), (255 : ℚ)), ((255 : ℚ), (255 : ℚ), (255 : ℚ))]
      ((255 : ℚ), (255 : ℚ), (255 : ℚ)) = 0 := by
    norm_num [closestCluster, assignGo, distLtB, colorDistanceSq]
  rw [assignedTo_twoCluster, assignedTo_twoCluster, hB, hW]
  norm_num [meanRGB_eq, List.map_append, List.map_replicate, List.sum_replicate, nsmul_eq_mul]

lemma stepGW : kmeansStep twoClusterSample 2
      [((255 / 2 : ℚ), (255 / 2 : ℚ), (255 / 2 : ℚ)), ((255 : ℚ), (255 : ℚ), (255 : ℚ))]
    = [((0 : ℚ), (0 : ℚ), (0 : ℚ)), ((255 : ℚ), (255 : ℚ), (255 : ℚ))] := by
  rw [kmeansStep_pair]
  have hB : closestCluster [((255 / 2 : ℚ), (255 / 2 : ℚ), (255 / 2 : ℚ)),
      ((255 : ℚ), (255 : ℚ), (255 : ℚ))] ((0 : ℚ), (0 : ℚ), (0 : ℚ)) = 0 := by
    norm_num [closestCluster, assignGo, distLtB, colorDistanceSq]
  have hW : closestCluster [((255 / 2 : ℚ), (255 / 2 : ℚ), (255 / 2 : ℚ)),
      ((255 : ℚ), (255 : ℚ), (255 : ℚ))] ((255 : ℚ), (255 : ℚ), (255 : ℚ)) = 1 := by
    norm_num [closestCluster, assignGo, distLtB, colorDistanceSq]
  rw [assignedTo_twoCluster, assignedTo_twoCluster, hB, hW]
  norm_num [meanRGB_eq, List.map_append, List.map_replicate, List.sum_replicate, nsmul_eq_mul]



lemma run_BW :
    ((kmeansStep twoClusterSample 2)^[1]
        [((0 : ℚ), (0 : ℚ), (0 : ℚ)), ((255 : ℚ), (255 : ℚ), (255 : ℚ))]
      = [((0 : ℚ), (0 : ℚ), (0 : ℚ)), ((255 : ℚ), (255 : ℚ), (255 : ℚ))]) ∧
    convergedB ((kmeansStep twoClusterSample 2)^[0]
        [((0 : ℚ), (0 : ℚ), (0 : ℚ)), ((255 : ℚ), (255 : ℚ), (255 : ℚ))])
      ((kmeansStep twoClusterSample 2)^[1]
        [((0 : ℚ), (0 : ℚ), (0 : ℚ)), ((255 : ℚ), (255 : ℚ), (255 : ℚ))]) = true ∧
    kmeansLoop twoClusterSample 2 20
        [((0 : ℚ), (0 : ℚ), (0 : ℚ)), ((255 : ℚ), (255 : ℚ), (255 : ℚ))]
      = (kmeansStep twoClusterSample 2)^[1]
        [((0 : ℚ), (0 : ℚ), (0 : ℚ)), ((255 : ℚ), (255 : ℚ), (255 : ℚ))] := by
  have i1 : (kmeansStep twoClusterSample 2)^[1]
      [((0 : ℚ), (0 : ℚ), (0 : ℚ)), ((255 : ℚ), (255 : ℚ), (255 : ℚ))]
      = [((0 : ℚ), (0 : ℚ), (0 : ℚ)), ((255 : ℚ), (255 : ℚ), (255 : ℚ))] := by
    rw [Function.iterate_one, stepBW]
  have hP0 : convergedB ((kmeansStep twoClusterSample 2)^[0]
      [((0 : ℚ), (0 : ℚ), (0 : ℚ)), ((255 : ℚ), (255 : ℚ), (255 : ℚ))])
      ((kmeansStep twoClusterSample 2)^[1]
      [((0 : ℚ), (0 : ℚ), (0 : ℚ)), ((255 : ℚ), (255 : ℚ), (255 : ℚ))]) = true := by
    rw [Function.iterate_zero_apply, i1]
    exact convergedB_self _
  exact ⟨i1, hP0, kmeansLoop_early twoClusterSample 2 0 20 _ (by norm_num) hP0
    (fun j hj => absurd hj (by omega))⟩

lemma run_WB :
    ((kmeansStep twoClusterSample 2)^[1]
        [((255 : ℚ), (255 : ℚ), (255 : ℚ)), ((0 : ℚ), (0 : ℚ), (0 : ℚ))]
      = [((255 : ℚ), (255 : ℚ), (255 : ℚ)), ((0 : ℚ), (0 : ℚ), (0 : ℚ))]) ∧
    convergedB ((kmeansStep twoClusterSample 2)^[0]
        [((255 : ℚ), (255 : ℚ), (255 : ℚ)), ((0 : ℚ), (0 : ℚ), (0 : ℚ))])
      ((kmeansStep twoClusterSample 2)^[1]
        [((255 : ℚ), (255 : ℚ), (255 : ℚ)), ((0 : ℚ), (0 : ℚ), (0 : ℚ))]) = true ∧
    kmeansLoop twoClusterSample 2 20
        [((255 : ℚ), (255 : ℚ), (255 : ℚ)), ((0 : ℚ), (0 : ℚ), (0 : ℚ))]
      = (kmeansStep twoClusterSample 2)^[1]
        [((255 : ℚ), (255 : ℚ), (255 : ℚ)), ((0 : ℚ), (0 : ℚ), (0 : ℚ))] := by
  have i1 : (kmeansStep twoClusterSample 2)^[1]
      [((255 : ℚ), (255 : ℚ), (255 : ℚ)), ((0 : ℚ), (0 : ℚ), (0 : ℚ))]
      = [((255 : ℚ), (255 : ℚ), (255 : ℚ)), ((0 : ℚ), (0 : ℚ), (0 : ℚ))] := by
    rw [Function.iterate_one, stepWB]
  have hP0 : convergedB ((kmeansStep twoClusterSample 2)^[0]
      [((255 : ℚ), (255 : ℚ), (255 : ℚ)), ((0 : ℚ), (0 : ℚ), (0 : ℚ))])
      ((kmeansStep twoClusterSample 2)^[1]
      [((255 : ℚ), (255 : ℚ), (255 : ℚ)), ((0 : ℚ), (0 : ℚ), (0 : ℚ))]) = true := by
    rw [Function.iterate_zero_apply, i1]
    exact convergedB_self _
  exact ⟨i1, hP0, kmeansLoop_early twoClusterSample 2 0 20 _ (by norm_num) hP0
    (fun j hj => absurd hj (by omega))⟩

lemma convWWfalse : convergedB
      [((255 : ℚ), (255 : ℚ), (255 : ℚ)), ((255 : ℚ), (255 : ℚ), (255 : ℚ))]
      [((255 / 2 : ℚ), (255 / 2 : ℚ), (255 / 2 : ℚ)), ((255 : ℚ), (255 : ℚ), (255 : ℚ))]
    = false := by
  norm_num [convergedB, colorDistanceSq]

lemma convGWfalse : convergedB
      [((255 / 2 : ℚ), (255 / 2 : ℚ), (255 / 2 : ℚ)), ((255 : ℚ), (255 : ℚ), (255 : ℚ))]
      [((0 : ℚ), (0 : ℚ), (0 : ℚ)), ((255 : ℚ), (255 : ℚ), (255 : ℚ))] = false := by
  norm_num [convergedB, colorDistanceSq]

lemma run_WW :
    ((kmeansStep twoClusterSample 2)^[3]
        [((255 : ℚ), (255 : ℚ), (255 : ℚ)), ((255 : ℚ), (255 : ℚ), (255 : ℚ))]
      = [((0 : ℚ), (0 : ℚ), (0 : ℚ)), ((255 : ℚ), (255 : ℚ), (255 : ℚ))]) ∧
    convergedB ((kmeansStep twoClusterSample 2)^[2]
        [((255 : ℚ), (255 : ℚ), (255 : ℚ)), ((255 : ℚ), (255 : ℚ), (255 : ℚ))])
      ((kmeansStep twoClusterSample 2)^[3]
        [((255 : ℚ), (255 : ℚ), (255 : ℚ)), ((255 : ℚ), (255 : ℚ), (255 : ℚ))]) = true ∧
    (∀ j < 2, convergedB ((kmeansStep twoClusterSample 2)^[j]
        [((255 : ℚ), (255 : ℚ), (255 : ℚ)), ((255 : ℚ), (255 : ℚ), (255 : ℚ))])
      ((kmeansStep twoClusterSample 2)^[j + 1]
        [((255 : ℚ), (255 : ℚ), (255 : ℚ)), ((255 : ℚ), (255 : ℚ), (255 : ℚ))]) = false) ∧
    kmeansLoop twoClusterSample 2 20
        [((255 : ℚ), (255 : ℚ), (255 : ℚ)), ((255 : ℚ), (255 : ℚ), (255 : ℚ))]
      = (kmeansStep twoClusterSample 2)^[3]
        [((255 : ℚ), (255 : ℚ), (255 : ℚ)), ((255 : ℚ), (255 : ℚ), (255 : ℚ))] := by
  have i1 : (kmeansStep twoClusterSample 2)^[1]
      [((255 : ℚ), (255 : ℚ), (255 : ℚ)), ((255 : ℚ), (255 : ℚ), (255 : ℚ))]
      = [((255 / 2 : ℚ), (255 / 2 : ℚ), (255 / 2 : ℚ)), ((255 : ℚ), (255 : ℚ), (255 : ℚ))] := by
    rw [Function.iterate_one, stepWW]
  have i2 : (kmeansStep twoClusterSample 2)^[2]
      [((255 : ℚ), (255 : ℚ), (255 : ℚ)), ((255 : ℚ), (255 : ℚ), (255 : ℚ))]
      = [((0 : ℚ), (0 : ℚ), (0 : ℚ)), ((255 : ℚ), (255 : ℚ), (255 : ℚ))] := by
    rw [show (2 : ℕ) = 1 + 1 from rfl, Function.iterate_succ_apply', i1, stepGW]
  have i3 : (kmeansStep twoClusterSample 2)^[3]
      [((255 : ℚ), (255 : ℚ), (255 : ℚ)), ((255 : ℚ), (255 : ℚ), (255 : ℚ))]
      = [((0 : ℚ), (0 : ℚ), (0 : ℚ)), ((255 : ℚ), (255 : ℚ), (255 : ℚ))] := by
    rw [show (3 : ℕ) = 2 + 1 from rfl, Function.iterate_succ_apply', i2, stepBW]
  have hP2 : convergedB ((kmeansStep twoClusterSample 2)^[2]
      [((255 : ℚ), (255 : ℚ), (255 : ℚ)), ((255 : ℚ), (255 : ℚ), (255 : ℚ))])
      ((kmeansStep twoClusterSample 2)^[3]
      [((255 : ℚ), (255 : ℚ), (255 : ℚ)), ((255 : ℚ), (255 : ℚ), (255 : ℚ))]) = true := by
    rw [i2, i3]
    exact convergedB_self _
  have hPj : ∀ j < 2, convergedB ((kmeansStep twoClusterSample 2)^[j]
      [((255 : ℚ), (255 : ℚ), (255 : ℚ)), ((255 : ℚ), (255 : ℚ), (255 : ℚ))])
      ((kmeansStep twoClusterSample 2)^[j + 1]
      [((255 : ℚ), (255 : ℚ), (255 : ℚ)), ((255 : ℚ), (255 : ℚ), (255 : ℚ))]) = false := by
    intro j hj
    interval_cases j
    · rw [Function.iterate_zero_apply, i1]
      exact convWWfalse
    · rw [i1, i2]
      exact convGWfalse
  exact ⟨i3, hP2, hPj, kmeansLoop_early twoClusterSample 2 2 20 _ (by norm_num) hP2 hPj⟩



/-- C10: for the synthetic sample set of 50 points at `(0,0,0)` and 50
points at `(255,255,255)` with `k = 2`, for every behavior of the random
oracles (any draw sequence that lets the seeding loop finish), the engine
converges strictly before the default cap of 20 iterations — the first
convergent update happens at some `m` with `m + 1 < 20` — and returns two
centroids, one within squared distance 25 (Euclidean distance 5) of
`(0,0,0)` and the other within squared distance 25 of `(255,255,255)`. -/
theorem C10_two_cluster_convergence (picks : List ℕ) (rand : ℕ → RGB)
    (hval : ∀ j ∈ picks, j < twoClusterSample.length)
    (hdone : initLoopDone twoClusterSample 2 picks) :
    ∃ m : ℕ, m + 1 < 20 ∧
      convergedB
        ((kmeansStep twoClusterSample 2)^[m] (initCentroids twoClusterSample 2 picks rand))
        ((kmeansStep twoClusterSample 2)^[m + 1]
          (initCentroids twoClusterSample 2 picks rand)) = true ∧
      (∀ j < m, convergedB
        ((kmeansStep twoClusterSample 2)^[j] (initCentroids twoClusterSample 2 picks rand))
        ((kmeansStep twoClusterSample 2)^[j + 1]
          (initCentroids twoClusterSample 2 picks rand)) = false) ∧
      kMeansClustering twoClusterSample 2 picks rand 20
        = (kmeansStep twoClusterSample 2)^[m + 1]
            (initCentroids twoClusterSample 2 picks rand) ∧
      ∃ cA cB : RGB, kMeansClustering twoClusterSample 2 picks rand 20 = [cA, cB] ∧
        ((colorDistanceSq cA ((0 : ℚ), (0 : ℚ), (0 : ℚ)) < 25 ∧
            colorDistanceSq cB ((255 : ℚ), (255 : ℚ), (255 : ℚ)) < 25) ∨
         (colorDistanceSq cA ((255 : ℚ), (255 : ℚ), (255 : ℚ)) < 25 ∧
            colorDistanceSq cB ((0 : ℚ), (0 : ℚ), (0 : ℚ)) < 25)) := by
  obtain ⟨idxs, hnd, hrange, hle, hexh, heq⟩ :=
    initCentroids_spec twoClusterSample 2 picks rand hval hdone
  have hlen2 : idxs.length = 2 := by
    rcases Nat.lt_or_ge idxs.length 2 with h | h
    · have := hexh h
      rw [twoClusterSample_length] at this
      omega
    · omega
  obtain ⟨i, j, rfl⟩ := List.length_eq_two.mp hlen2
  have hi : i < 100 := by
    have := hrange i (List.mem_cons_self _ _)
    rwa [twoClusterSample_length] at this
  have hj : j < 100 := by
    have := hrange j (List.mem_cons_of_mem _ (List.mem_cons_self _ _))
    rwa [twoClusterSample_length] at this
  have heqc : initCentroids twoClusterSample 2 picks rand
      = [twoClusterSample.getD i (0, 0, 0), twoClusterSample.getD j (0, 0, 0)] := by
    rw [heq]
    simp
  rw [twoClusterSample_getD i hi, twoClusterSample_getD j hj] at heqc
  rw [kMeansClustering]
  by_cases h1 : i < 50 <;> by_cases h2 : j < 50
  · -- both seeds black
    rw [if_pos h1, if_pos h2] at heqc
    rw [heqc]
    obtain ⟨i3, hP2, hPj, hloop⟩ := run_BB
    refine ⟨2, by norm_num, hP2, hPj, hloop, ?_⟩
    rw [hloop, i3]
    exact ⟨_, _, rfl, Or.inr ⟨by rw [colorDistanceSq_self]; norm_num,
      by rw [colorDistanceSq_self]; norm_num⟩⟩
  · -- black then white
    rw [if_pos h1, if_neg h2] at heqc
    rw [heqc]
    obtain ⟨i1, hP0, hloop⟩ := run_BW
    refine ⟨0, by norm_num, hP0, fun j hj => absurd hj (by omega), hloop, ?_⟩
    rw [hloop, i1]
    exact ⟨_, _, rfl, Or.inl ⟨by rw [colorDistanceSq_self]; norm_num,
      by rw [colorDistanceSq_self]; norm_num⟩⟩
  · -- white then black
    rw [if_neg h1, if_pos h2] at heqc
    rw [heqc]
    obtain ⟨i1, hP0, hloop⟩ := run_WB
    refine ⟨0, by norm_num, hP0, fun j hj => absurd hj (by omega), hloop, ?_⟩
    rw [hloop, i1]
    exact ⟨_, _, rfl, Or.inr ⟨by rw [colorDistanceSq_self]; norm_num,
      by rw [colorDistanceSq_self]; norm_num⟩⟩
  · -- both seeds white
    rw [if_neg h1, if_neg h2] at heqc
    rw [heqc]
    obtain ⟨i3, hP2, hPj, hloop⟩ := run_WW
    refine ⟨2, by norm_num, hP2, hPj, hloop, ?_⟩
    rw [hloop, i3]
    exact ⟨_, _, rfl, Or.inl ⟨by rw [colorDistanceSq_self]; norm_num,
      by rw [colorDistanceSq_self]; norm_num⟩⟩


theorem C10_two_cluster_convergence_witness :
    ((∀ j ∈ [0, 99], j < twoClusterSample.length) ∧
      initLoopDone twoClusterSample 2 [0, 99]) ∧
    (∃ m : ℕ, m + 1 < 20 ∧
      convergedB
        ((kmeansStep twoClusterSample 2)^[m]
          (initCentroids twoClusterSample 2 [0, 99] (fun _ => ((7 : ℚ), (7 : ℚ), (7 : ℚ)))))
        ((kmeansStep twoClusterSample 2)^[m + 1]
          (initCentroids twoClusterSample 2 [0, 99]
            (fun _ => ((7 : ℚ), (7 : ℚ), (7 : ℚ))))) = true ∧
      (∀ j < m, convergedB
        ((kmeansStep twoClusterSample 2)^[j]
          (initCentroids twoClusterSample 2 [0, 99] (fun _ => ((7 : ℚ), (7 : ℚ), (7 : ℚ)))))
        ((kmeansStep twoClusterSample 2)^[j + 1]
          (initCentroids twoClusterSample 2 [0, 99]
            (fun _ => ((7 : ℚ), (7 : ℚ), (7 : ℚ))))) = false) ∧
      kMeansClustering twoClusterSample 2 [0, 99] (fun _ => ((7 : ℚ), (7 : ℚ), (7 : ℚ))) 20
        = (kmeansStep twoClusterSample 2)^[m + 1]
            (initCentroids twoClusterSample 2 [0, 99]
              (fun _ => ((7 : ℚ), (7 : ℚ), (7 : ℚ)))) ∧
      ∃ cA cB : RGB,
        kMeansClustering twoClusterSample 2 [0, 99]
            (fun _ => ((7 : ℚ), (7 : ℚ), (7 : ℚ))) 20 = [cA, cB] ∧
        ((colorDistanceSq cA ((0 : ℚ), (0 : ℚ), (0 : ℚ)) < 25 ∧
            colorDistanceSq cB ((255 : ℚ), (255 : ℚ), (255 : ℚ)) < 25) ∨
         (colorDistanceSq cA ((255 : ℚ), (255 : ℚ), (255 : ℚ)) < 25 ∧
            colorDistanceSq cB ((0 : ℚ), (0 : ℚ), (0 : ℚ)) < 25))) := by
  have hval : ∀ j ∈ [0, 99], j < twoClusterSample.length := by
    intro j hj
    rw [twoClusterSample_length]
    rcases List.mem_cons.mp hj with rfl | hj2
    · omega
    · rcases List.mem_singleton.mp hj2 with rfl
      omega
  have hdone : initLoopDone twoClusterSample 2 [0, 99] := by
    norm_num [initLoopDone, initLoop, twoClusterSample]
  exact ⟨⟨hval, hdone⟩,
    C10_two_cluster_convergence [0, 99] (fun _ => ((7 : ℚ), (7 : ℚ), (7 : ℚ))) hval hdone⟩

end Colors
